import Mathlib

/-!
The SRL Controller (include/srl/Controller.hpp)

A shallow embedding of `al::srl::Controller`: the connection registry
(`connections`, `next_client_id`, `connection_timeout`) and the service
directory (`providers`, `provider_connection_map`), with the member functions
that read and update them.

Modelling choices.

* `std::map<K, V>` is an association list with one entry per key
  (`StdMap`): `find` is `std::map::find`, `insert` is the non-overwriting
  `std::map::insert`, `assign` is `m[k] = v`, `erase` is erasure of the entry
  an iterator points at.
* `int` is a 32-bit and `long` a 64-bit two's-complement integer: values are
  `Int`s and the results of `++` and `+` are wrapped (`wrapInt`, `wrapLong`),
  which is what the overflowing operation leaves in the variable on the
  machines the code runs on.
* Pointers to collaborator objects (`Connection *`, `ServiceProvider *`) are
  handles of live objects. What a member function does to its collaborators
  (a `send`, a `delete`) is recorded, in program order, as a list of `Event`s.
* `provider_connection_map.erase(provider_connection_map.find(c))` with no
  entry for `c` erases the `end()` iterator: undefined behaviour, with no
  result to speak of. A member function that reaches it returns `none`.
* `c->is_connected()` is a function `is_connected : Connection → Bool` given to
  the member functions that call it.
* `register_interface` has no `return` statement on its success path; the
  value it returns is an `Option Bool`, `none` on that path.
* `run_loop` is only declared in the header. Its reap cycle (`reap`) is
  modelled from the specification, on top of `destroy_connection` and
  `is_expired`, which are source.
-/

namespace Srl

/-! ## std::map -/

/-- A `std::map<κ, α>`: key/value entries, at most one per key. -/
abbrev StdMap (κ α : Type) := List (κ × α)

namespace StdMap

variable {κ α : Type} [DecidableEq κ]

/-- The value of `m.find(k)`: `none` stands for `m.end()`. -/
def find : StdMap κ α → κ → Option α
  | [], _ => none
  | (k', v) :: rest, k => if k' = k then some v else find rest k

/-- The map without its entry for `k` (`m.erase(it)` with `it` at key `k`). -/
def erase : StdMap κ α → κ → StdMap κ α
  | [], _ => []
  | (k', v) :: rest, k => if k' = k then erase rest k else (k', v) :: erase rest k

/-- The assignment `m[k] = v`: creates the entry or overwrites its value. -/
def assign (m : StdMap κ α) (k : κ) (v : α) : StdMap κ α :=
  (k, v) :: erase m k

/-- The call `m.insert(std::pair(k, v))`: no effect when `k` already has an entry. -/
def insert (m : StdMap κ α) (k : κ) (v : α) : StdMap κ α :=
  match find m k with
  | some _ => m
  | none => (k, v) :: m

/-- The call `m.erase(m.find(k))`: erasing `m.end()` is undefined behaviour. -/
def eraseFound (m : StdMap κ α) (k : κ) : Option (StdMap κ α) :=
  match find m k with
  | some _ => some (erase m k)
  | none => none

end StdMap

/-! ## Machine integers -/

/-- The value an `int` (32 bits, two's complement) holds after computing `x`. -/
def wrapInt (x : Int) : Int := (x + 2147483648) % 4294967296 - 2147483648

/-- The value a `long` (64 bits, two's complement) holds after computing `x`. -/
def wrapLong (x : Int) : Int :=
  (x + 9223372036854775808) % 18446744073709551616 - 9223372036854775808

/-! ## Collaborators -/

/-- A `Connection *`: the handle of a connection object. -/
abbrev Connection := Nat

/-- A `CommIF *`: the handle of a transport interface, `0` being the null pointer. -/
abbrev CommIF := Nat

/-- A `ServiceProvider *`: the object at `addr`, with what its `get_name()` and
`get_connection()` return. -/
structure ServiceProvider where
  addr : Nat
  name : String
  connection : Connection
  deriving DecidableEq, Repr

namespace ServiceProvider

/-- The accessor `ServiceProvider::get_name`. -/
def get_name (p : ServiceProvider) : String := p.name

/-- The accessor `ServiceProvider::get_connection`. -/
def get_connection (p : ServiceProvider) : Connection := p.connection

end ServiceProvider

/-- Modelled from the spec: the message type built by `DisconnectMessageFactory`
(srl/BuiltinMessageFactory.hpp is not part of the sources): a disconnect notice
carrying a human-readable reason string. -/
inductive Message where
  | disconnect (reason : String)
  deriving DecidableEq, Repr

/-- Modelled from the spec: `DisconnectMessageFactory::generate(reason)` produces
the disconnect message carrying `reason`. -/
def DisconnectMessageFactory.generate (reason : String) : Message :=
  Message.disconnect reason

/-- Modelled from the spec: `CommIFDescriptor(cif, managed)` (declared in
srl/CommunicationInterface.hpp, not part of the sources) pairs a transport with
the flag saying whether the controller destroys it at shutdown. -/
structure CommIFDescriptor where
  cif : CommIF
  managed : Bool
  deriving DecidableEq, Repr

/-- What a member function does to the objects around the controller. -/
inductive Event where
  | send (connection : Connection) (message : Message)
  | delete_provider (provider : ServiceProvider)
  | delete_connection (connection : Connection)
  deriving DecidableEq, Repr

/-! ## ConnectionDescriptor -/

/-- The class `Controller::ConnectionDescriptor`. -/
structure ConnectionDescriptor where
  id : Int
  connection : Connection
  expiration : Int
  processing : Bool
  deriving DecidableEq, Repr

namespace ConnectionDescriptor

/-- The three-argument constructor: `processing` starts out false. -/
def new (id : Int) (connection : Connection) (expiration : Int) : ConnectionDescriptor :=
  ⟨id, connection, expiration, false⟩

/-- The test `(expiration > 0) && (current_time > expiration)`. -/
def is_expired (d : ConnectionDescriptor) (current_time : Int) : Bool :=
  decide (d.expiration > 0) && decide (current_time > d.expiration)

/-- The accessor `get_id`. -/
def get_id (d : ConnectionDescriptor) : Int := d.id

/-- The accessor `get_connection`. -/
def get_connection (d : ConnectionDescriptor) : Connection := d.connection

/-- The accessor `get_expiration`. -/
def get_expiration (d : ConnectionDescriptor) : Int := d.expiration

/-- The accessor `is_being_processed`. -/
def is_being_processed (d : ConnectionDescriptor) : Bool := d.processing

end ConnectionDescriptor

/-! ## Controller -/

/-- The data members of `Controller` that its inline member functions use. -/
structure Controller where
  next_client_id : Int
  connection_timeout : Int
  connections : StdMap Int ConnectionDescriptor
  comm_ifs : List CommIFDescriptor
  providers : StdMap String ServiceProvider
  provider_connection_map : StdMap Connection String
  deriving DecidableEq, Repr

namespace Controller

/-- The constant `DefaultIdleConnectionTimeout = 60*10` seconds. -/
def DefaultIdleConnectionTimeout : Int := 60 * 10

/-- The constructor: ids start at 100, the timeout at its default, every
container empty. -/
def new : Controller :=
  { next_client_id := 100
    connection_timeout := DefaultIdleConnectionTimeout
    connections := []
    comm_ifs := []
    providers := []
    provider_connection_map := [] }

/-- The member `add_connection(connection, expiration)`, called while
`concurrent::stime()` returns `now`. -/
def add_connection (now : Int) (s : Controller) (connection : Connection)
    (expiration : Int) : Controller :=
  let expiration :=
    if expiration = 0 then wrapLong (now + s.connection_timeout) else expiration
  { s with
    connections :=
      StdMap.insert s.connections s.next_client_id
        (ConnectionDescriptor.new s.next_client_id connection expiration)
    next_client_id := wrapInt (s.next_client_id + 1) }

/-- The member `get_connection(id)`: `none` is the NULL result. -/
def get_connection (s : Controller) (id : Int) : Option ConnectionDescriptor :=
  StdMap.find s.connections id

/-- The member `get_provider(name)`: `none` is the null result. -/
def get_provider (s : Controller) (name : String) : Option ServiceProvider :=
  StdMap.find s.providers name

/-- The member `register_provider(provider)`. -/
def register_provider (s : Controller) (provider : ServiceProvider) : Controller :=
  let pcm := StdMap.assign s.provider_connection_map provider.get_connection provider.get_name
  { s with
    provider_connection_map := pcm
    providers := StdMap.assign s.providers provider.get_name provider }

/-- The events of an `unregister_provider` call that finds `provider` and erases
both of its entries: the disconnect message, sent when the connection is still
open, then the deletion of the provider. -/
def unregister_events (is_connected : Connection → Bool) (provider : ServiceProvider)
    (reason : String) : List Event :=
  (if is_connected provider.get_connection then
      [Event.send provider.get_connection (DisconnectMessageFactory.generate reason)]
    else []) ++ [Event.delete_provider provider]

/-- The member `unregister_provider(provider_name, reason)`; `is_connected c`
is what `c->is_connected()` returns. The result is the new state with the
events of the call, or `none` when the call erases
`provider_connection_map.end()`. -/
def unregister_provider (is_connected : Connection → Bool) (s : Controller)
    (provider_name : String) (reason : String) : Option (Controller × List Event) :=
  match StdMap.find s.providers provider_name with
  | none => some (s, [])
  | some provider =>
    let sent :=
      if is_connected provider.get_connection then
        [Event.send provider.get_connection (DisconnectMessageFactory.generate reason)]
      else []
    match StdMap.eraseFound s.provider_connection_map provider.get_connection with
    | none => none
    | some pcm =>
      some ({ s with
              provider_connection_map := pcm
              providers := StdMap.erase s.providers provider_name },
            sent ++ [Event.delete_provider provider])

/-- The call `unregister_provider(provider_name)` with the default `reason = ""`. -/
def unregister_provider_default (is_connected : Connection → Bool) (s : Controller)
    (provider_name : String) : Option (Controller × List Event) :=
  unregister_provider is_connected s provider_name ""

/-- The member `set_idle_connection_timeout(seconds)`. -/
def set_idle_connection_timeout (s : Controller) (seconds : Int) : Controller :=
  { s with connection_timeout := seconds }

/-- The member `get_idle_connection_timeout()`. -/
def get_idle_connection_timeout (s : Controller) : Int := s.connection_timeout

/-- The private member `get_provider_name(connection)`. -/
def get_provider_name (s : Controller) (connection : Connection) : String :=
  match StdMap.find s.provider_connection_map connection with
  | some name => name
  | none => ""

/-- The private member `destroy_connection(connection, reason)`. -/
def destroy_connection (is_connected : Connection → Bool) (s : Controller)
    (connection : Connection) (reason : String) : Option (Controller × List Event) :=
  let provider_name := get_provider_name s connection
  if provider_name ≠ "" then
    match unregister_provider is_connected s provider_name reason with
    | none => none
    | some (s', events) => some (s', events ++ [Event.delete_connection connection])
  else
    some (s, [Event.delete_connection connection])

end Controller

/-! ## Call sequences -/

/-- A call of one of the two directory-updating members. -/
inductive DirectoryCall where
  | register (provider : ServiceProvider)
  | unregister (provider_name : String) (reason : String)
  deriving DecidableEq, Repr

/-- The state after a sequence of directory calls, with the events of all of
them; `none` when one of the calls has undefined behaviour. -/
def runDirectory (is_connected : Connection → Bool) :
    Controller → List DirectoryCall → Option (Controller × List Event)
  | s, [] => some (s, [])
  | s, DirectoryCall.register p :: rest =>
    runDirectory is_connected (s.register_provider p) rest
  | s, DirectoryCall.unregister n r :: rest =>
    match s.unregister_provider is_connected n r with
    | none => none
    | some (s', events) =>
      match runDirectory is_connected s' rest with
      | none => none
      | some (s'', events') => some (s'', events ++ events')

/-- The registration of `p` keeps the directory in step: either both its name and
its connection are new to the directory, or its connection already maps to its
name (a registration under the same name on the same connection). -/
def admissible (s : Controller) (p : ServiceProvider) : Bool :=
  (decide (StdMap.find s.providers p.get_name = none) &&
    decide (StdMap.find s.provider_connection_map p.get_connection = none)) ||
  decide (StdMap.find s.provider_connection_map p.get_connection = some p.get_name)

/-- Every `register_provider` call of the sequence is admissible in the state it
is made in. -/
def admissibleCalls (is_connected : Connection → Bool) :
    Controller → List DirectoryCall → Bool
  | _, [] => true
  | s, DirectoryCall.register p :: rest =>
    admissible s p && admissibleCalls is_connected (s.register_provider p) rest
  | s, DirectoryCall.unregister n r :: rest =>
    match s.unregister_provider is_connected n r with
    | none => true
    | some (s', _) => admissibleCalls is_connected s' rest

/-- Directory consistency: connection `c` maps to name `n` in the inverse index
exactly when `n` is a key of the forward map whose provider is bound to `c`, and
every provider of the forward map is stored under its own name, which is also
the inverse entry of its connection. -/
def Consistent (s : Controller) : Prop :=
  (∀ c n, StdMap.find s.provider_connection_map c = some n ↔
      ∃ p, StdMap.find s.providers n = some p ∧ p.get_connection = c) ∧
  (∀ n p, StdMap.find s.providers n = some p →
      p.get_name = n ∧
      StdMap.find s.provider_connection_map p.get_connection = some p.get_name)

/-- The inverse index maps the connection of every registered provider to the
name the provider is registered under. -/
def InverseCovers (s : Controller) : Prop :=
  ∀ n p, StdMap.find s.providers n = some p →
    StdMap.find s.provider_connection_map p.get_connection = some n

/-- The messages sent in a list of events, with the connection each was sent on. -/
def sends : List Event → List (Connection × Message)
  | [] => []
  | Event.send c m :: rest => (c, m) :: sends rest
  | Event.delete_provider _ :: rest => sends rest
  | Event.delete_connection _ :: rest => sends rest

/-- One `add_connection(connection, expiration)` call, made at time `now`. -/
structure AddCall where
  now : Int
  connection : Connection
  expiration : Int
  deriving DecidableEq, Repr

/-- The state after a sequence of `add_connection` calls, with the identifier
each call gave its descriptor, in call order. -/
def addAll : Controller → List AddCall → Controller × List Int
  | s, [] => (s, [])
  | s, a :: rest =>
    let r := addAll (s.add_connection a.now a.connection a.expiration) rest
    (r.1, s.next_client_id :: r.2)

/-- The descriptor an `add_connection` call made at time `a.now` constructs for
the identifier `id` when the idle timeout is `timeout`. -/
def stored (timeout : Int) (id : Int) (a : AddCall) : ConnectionDescriptor :=
  ConnectionDescriptor.new id a.connection
    (if a.expiration = 0 then wrapLong (a.now + timeout) else a.expiration)

/-- The member `register_interface(cif, managed)`: the state after the call and
the value returned. The function has a `return` statement only on the null
path; for a non-null `cif` control flows off the end of a function returning
`bool`, which is undefined behaviour and yields no value: `none`. -/
def Controller.register_interface (s : Controller) (cif : CommIF) (managed : Bool) :
    Controller × Option Bool :=
  if cif = 0 then (s, some false)
  else ({ s with comm_ifs := s.comm_ifs ++ [CommIFDescriptor.mk cif managed] }, none)

/-- A call of one of the members that the idle timeout is read or kept by. -/
inductive ControllerCall where
  | set_idle_connection_timeout (seconds : Int)
  | add_connection (now : Int) (connection : Connection) (expiration : Int)
  | register_provider (provider : ServiceProvider)
  | unregister_provider (provider_name : String) (reason : String)
  | get_connection (id : Int)
  deriving DecidableEq, Repr

/-- The state after a sequence of calls; `none` when one of them has undefined
behaviour. -/
def runCalls (is_connected : Connection → Bool) :
    Controller → List ControllerCall → Option Controller
  | s, [] => some s
  | s, ControllerCall.set_idle_connection_timeout t :: rest =>
    runCalls is_connected (s.set_idle_connection_timeout t) rest
  | s, ControllerCall.add_connection now c e :: rest =>
    runCalls is_connected (s.add_connection now c e) rest
  | s, ControllerCall.register_provider p :: rest =>
    runCalls is_connected (s.register_provider p) rest
  | s, ControllerCall.unregister_provider n r :: rest =>
    match s.unregister_provider is_connected n r with
    | none => none
    | some (s', _) => runCalls is_connected s' rest
  | s, ControllerCall.get_connection _ :: rest =>
    runCalls is_connected s rest

/-- The argument of the last `set_idle_connection_timeout` call of the sequence,
or `t` when there is none. -/
def lastTimeout : Int → List ControllerCall → Int
  | t, [] => t
  | _, ControllerCall.set_idle_connection_timeout t :: rest => lastTimeout t rest
  | t, ControllerCall.add_connection _ _ _ :: rest => lastTimeout t rest
  | t, ControllerCall.register_provider _ :: rest => lastTimeout t rest
  | t, ControllerCall.unregister_provider _ _ :: rest => lastTimeout t rest
  | t, ControllerCall.get_connection _ :: rest => lastTimeout t rest

/-- Modelled from the spec: the condition under which `run_loop` (declared in
Controller.hpp, its body is not part of the sources) reaps a descriptor,
`!is_being_processed() && is_expired(now)`. -/
def reapable (d : ConnectionDescriptor) (now : Int) : Bool :=
  !d.is_being_processed && d.is_expired now

/-- Modelled from the spec: the scan of one reap cycle of `run_loop` (declared in
Controller.hpp, its body is not part of the sources). For each key of the
registry whose descriptor has `!processing && is_expired(now)`, the run loop
destroys the connection (through `destroy_connection`, which unregisters a
bound provider first) and removes the registry entry. -/
def reap_keys (is_connected : Connection → Bool) (reason : String) (now : Int) :
    List Int → Controller → Option (Controller × List Event)
  | [], s => some (s, [])
  | k :: rest, s =>
    match StdMap.find s.connections k with
    | none => reap_keys is_connected reason now rest s
    | some d =>
      if reapable d now then
        match s.destroy_connection is_connected d.get_connection reason with
        | none => none
        | some (s₁, events₁) =>
          match reap_keys is_connected reason now rest
              { s₁ with connections := StdMap.erase s₁.connections k } with
          | none => none
          | some (s₂, events₂) => some (s₂, events₁ ++ events₂)
      else reap_keys is_connected reason now rest s

/-- Modelled from the spec: one reap cycle of `run_loop` at time `now`, a scan
of the whole registry. -/
def reap (is_connected : Connection → Bool) (reason : String) (now : Int)
    (s : Controller) : Option (Controller × List Event) :=
  reap_keys is_connected reason now (s.connections.map Prod.fst) s

/-- Modelled from the spec: reap cycles of `run_loop`, one at each of the given
times. -/
def reap_cycles (is_connected : Connection → Bool) (reason : String) :
    Controller → List Int → Option (Controller × List Event)
  | s, [] => some (s, [])
  | s, now :: rest =>
    match reap is_connected reason now s with
    | none => none
    | some (s₁, events₁) =>
      match reap_cycles is_connected reason s₁ rest with
      | none => none
      | some (s₂, events₂) => some (s₂, events₁ ++ events₂)

/-! ## std::map lemmas -/

namespace StdMap

variable {κ α : Type} [DecidableEq κ]

theorem find_erase_self (m : StdMap κ α) (k : κ) : find (erase m k) k = none := by
  induction m with
  | nil => rfl
  | cons e rest ih =>
    obtain ⟨k', v⟩ := e
    by_cases h : k' = k
    · simp [erase, h, ih]
    · simp [erase, find, h, ih]

theorem find_erase_ne (m : StdMap κ α) {k k' : κ} (h : k' ≠ k) :
    find (erase m k) k' = find m k' := by
  induction m with
  | nil => rfl
  | cons e rest ih =>
    obtain ⟨k₀, v⟩ := e
    by_cases h₀ : k₀ = k
    · have h₁ : ¬ k₀ = k' := fun hk => h (hk.symm.trans h₀)
      rw [erase, if_pos h₀, find, if_neg h₁, ih]
    · by_cases h₁ : k₀ = k'
      · rw [erase, if_neg h₀, find, if_pos h₁, find, if_pos h₁]
      · rw [erase, if_neg h₀, find, if_neg h₁, find, if_neg h₁, ih]

theorem find_assign_self (m : StdMap κ α) (k : κ) (v : α) :
    find (assign m k v) k = some v := by
  simp [assign, find]

theorem find_assign_ne (m : StdMap κ α) {k k' : κ} (v : α) (h : k' ≠ k) :
    find (assign m k v) k' = find m k' := by
  have h' : ¬ k = k' := fun hk => h hk.symm
  simp [assign, find, h', find_erase_ne m h]

theorem find_insert_of_none (m : StdMap κ α) (k : κ) (v : α) (h : find m k = none) :
    find (insert m k v) k = some v := by
  simp [insert, h, find]

theorem find_insert_ne (m : StdMap κ α) {k k' : κ} (v : α) (h : k' ≠ k) :
    find (insert m k v) k' = find m k' := by
  have h' : ¬ k = k' := fun hk => h hk.symm
  unfold insert
  cases hm : find m k with
  | none => simp [find, h']
  | some w => rfl

end StdMap

/-! ## unregister_provider, case by case -/

namespace Controller

theorem unregister_provider_absent (f : Connection → Bool) (s : Controller)
    (n reason : String) (h : StdMap.find s.providers n = none) :
    s.unregister_provider f n reason = some (s, []) := by
  simp [unregister_provider, h]

theorem unregister_provider_found (f : Connection → Bool) (s : Controller)
    (n reason : String) (p : ServiceProvider) (m : String)
    (h : StdMap.find s.providers n = some p)
    (hc : StdMap.find s.provider_connection_map p.get_connection = some m) :
    s.unregister_provider f n reason =
      some ({ s with
              provider_connection_map :=
                StdMap.erase s.provider_connection_map p.get_connection
              providers := StdMap.erase s.providers n },
            unregister_events f p reason) := by
  simp [unregister_provider, h, StdMap.eraseFound, hc, unregister_events]

theorem unregister_provider_undefined (f : Connection → Bool) (s : Controller)
    (n reason : String) (p : ServiceProvider)
    (h : StdMap.find s.providers n = some p)
    (hc : StdMap.find s.provider_connection_map p.get_connection = none) :
    s.unregister_provider f n reason = none := by
  simp [unregister_provider, h, StdMap.eraseFound, hc]

end Controller

/-! ## Directory consistency -/

theorem consistent_new : Consistent Controller.new := by
  constructor
  · intro c n
    simp [Controller.new, StdMap.find]
  · intro n p h
    simp [Controller.new, StdMap.find] at h

theorem Consistent.inverseCovers {s : Controller} (h : Consistent s) : InverseCovers s := by
  intro n p hp
  obtain ⟨hn, hc⟩ := h.2 n p hp
  rw [hc, hn]

theorem consistent_register {s : Controller} {p : ServiceProvider} (h : Consistent s)
    (ha : admissible s p = true) : Consistent (s.register_provider p) := by
  obtain ⟨h1, h2⟩ := h
  -- what admissibility gives: no other name on the connection of `p`, and no
  -- provider on another connection under the name of `p`
  have hconn : ∀ n, StdMap.find s.provider_connection_map p.get_connection = some n →
      n = p.get_name := by
    intro n hn
    simp only [admissible, Bool.or_eq_true, Bool.and_eq_true, decide_eq_true_eq] at ha
    rcases ha with ⟨_, hnone⟩ | hsome
    · rw [hnone] at hn; cases hn
    · rw [hsome] at hn; cases hn; rfl
  have hname : ∀ q, StdMap.find s.providers p.get_name = some q →
      q.get_connection = p.get_connection := by
    intro q hq
    simp only [admissible, Bool.or_eq_true, Bool.and_eq_true, decide_eq_true_eq] at ha
    rcases ha with ⟨hnone, _⟩ | hsome
    · rw [hnone] at hq; cases hq
    · obtain ⟨q', hq', hc'⟩ := (h1 _ _).1 hsome
      rw [hq] at hq'; cases hq'; exact hc'
  constructor
  · intro c n
    by_cases hc : c = p.get_connection
    · subst hc
      simp only [Controller.register_provider, StdMap.find_assign_self]
      constructor
      · intro hn
        cases hn
        exact ⟨p, StdMap.find_assign_self _ _ _, rfl⟩
      · rintro ⟨q, hq, hqc⟩
        by_cases hn : n = p.get_name
        · rw [hn]
        · rw [StdMap.find_assign_ne _ _ hn] at hq
          have := (h1 _ _).2 ⟨q, hq, hqc⟩
          exact absurd (hconn n this) hn
    · simp only [Controller.register_provider, StdMap.find_assign_ne _ _ hc]
      rw [h1 c n]
      by_cases hn : n = p.get_name
      · subst hn
        simp only [StdMap.find_assign_self]
        constructor
        · rintro ⟨q, hq, hqc⟩
          exact absurd ((hname q hq).symm.trans hqc).symm hc
        · rintro ⟨q, hq, hqc⟩
          cases hq
          exact absurd hqc.symm hc
      · simp only [StdMap.find_assign_ne _ _ hn]
  · intro n q hq
    by_cases hn : n = p.get_name
    · subst hn
      simp only [Controller.register_provider, StdMap.find_assign_self] at hq
      cases hq
      exact ⟨rfl, StdMap.find_assign_self _ _ _⟩
    · simp only [Controller.register_provider, StdMap.find_assign_ne _ _ hn] at hq
      obtain ⟨hqn, hqc⟩ := h2 n q hq
      refine ⟨hqn, ?_⟩
      have hne : q.get_connection ≠ p.get_connection := by
        intro heq
        rw [heq] at hqc
        exact hn (hqn.symm.trans (hconn _ hqc))
      simp only [Controller.register_provider, StdMap.find_assign_ne _ _ hne]
      exact hqc

theorem consistent_unregister {f : Connection → Bool} {s : Controller} (n reason : String)
    (h : Consistent s) :
    ∃ s' events, s.unregister_provider f n reason = some (s', events) ∧ Consistent s' := by
  cases hp : StdMap.find s.providers n with
  | none => exact ⟨s, [], Controller.unregister_provider_absent f s n reason hp, h⟩
  | some p =>
    obtain ⟨h1, h2⟩ := h
    obtain ⟨hpn, hpc⟩ := h2 n p hp
    refine ⟨_, _, Controller.unregister_provider_found f s n reason p _ hp hpc, ?_, ?_⟩
    · intro c m
      by_cases hc : c = p.get_connection
      · subst hc
        simp only [StdMap.find_erase_self]
        constructor
        · intro hm; cases hm
        · rintro ⟨q, hq, hqc⟩
          by_cases hm : m = n
          · subst hm
            rw [StdMap.find_erase_self] at hq; cases hq
          · rw [StdMap.find_erase_ne _ hm] at hq
            have := (h1 _ _).2 ⟨q, hq, hqc⟩
            rw [hpc, hpn] at this
            cases this
            exact absurd rfl hm
      · simp only [StdMap.find_erase_ne _ hc]
        rw [h1 c m]
        by_cases hm : m = n
        · subst hm
          simp only [StdMap.find_erase_self]
          constructor
          · rintro ⟨q, hq, hqc⟩
            rw [hp] at hq; cases hq
            exact absurd hqc.symm hc
          · rintro ⟨q, hq, _⟩
            cases hq
        · simp only [StdMap.find_erase_ne _ hm]
    · intro m q hq
      by_cases hm : m = n
      · subst hm
        simp only [StdMap.find_erase_self] at hq
        cases hq
      · simp only [StdMap.find_erase_ne _ hm] at hq
        obtain ⟨hqn, hqc⟩ := h2 m q hq
        refine ⟨hqn, ?_⟩
        have hne : q.get_connection ≠ p.get_connection := by
          intro heq
          rw [heq, hpc, hpn, hqn] at hqc
          cases hqc
          exact hm rfl
        simp only [StdMap.find_erase_ne _ hne]
        exact hqc

theorem consistent_run (f : Connection → Bool) (calls : List DirectoryCall) :
    ∀ s : Controller, Consistent s → admissibleCalls f s calls = true →
      ∃ s' events, runDirectory f s calls = some (s', events) ∧ Consistent s' := by
  induction calls with
  | nil => intro s h _; exact ⟨s, [], rfl, h⟩
  | cons call rest ih =>
    intro s h ha
    cases call with
    | register p =>
      simp only [admissibleCalls, Bool.and_eq_true] at ha
      simpa [runDirectory] using ih _ (consistent_register h ha.1) ha.2
    | unregister n r =>
      obtain ⟨s', ev, hs', hcons⟩ := consistent_unregister (f := f) n r h
      simp only [admissibleCalls, hs'] at ha
      obtain ⟨s'', ev', hrun, hcons'⟩ := ih s' hcons ha
      exact ⟨s'', ev ++ ev', by simp [runDirectory, hs', hrun], hcons'⟩

/-! ## C1: directory consistency -/

/-- C1, as the code has it: from a freshly constructed Controller, every sequence
of register_provider and unregister_provider calls whose registrations are all
admissible (name and connection both new to the directory, or the connection
already mapped to that name) runs with defined behaviour and ends in a
consistent directory: a connection maps to a name in the inverse index exactly
when that name is a key of the forward map whose provider is bound to the
connection, and every provider is stored under its own name, to which its
connection maps back. -/
theorem directory_consistent_of_admissible (f : Connection → Bool)
    (calls : List DirectoryCall)
    (h : admissibleCalls f Controller.new calls = true) :
    ∃ s events, runDirectory f Controller.new calls = some (s, events) ∧ Consistent s :=
  consistent_run f calls Controller.new consistent_new h

theorem directory_consistent_of_admissible_witness :
    admissibleCalls (fun _ => true) Controller.new
        [DirectoryCall.register ⟨1, "a", 10⟩, DirectoryCall.register ⟨2, "b", 20⟩,
         DirectoryCall.unregister "a" "bye", DirectoryCall.register ⟨3, "b", 20⟩] = true ∧
      ∃ s events,
        runDirectory (fun _ => true) Controller.new
          [DirectoryCall.register ⟨1, "a", 10⟩, DirectoryCall.register ⟨2, "b", 20⟩,
           DirectoryCall.unregister "a" "bye", DirectoryCall.register ⟨3, "b", 20⟩]
          = some (s, events) ∧ Consistent s :=
  ⟨by decide, directory_consistent_of_admissible _ _ (by decide)⟩

/-- C1 fails as stated. Two providers registered under different names on one
connection leave the first of them in the forward map while its connection maps
to the name of the second; and after one name is registered on two connections
and then unregistered, the first connection still maps to a name that is no
longer a key of the forward map. -/
theorem directory_inconsistent_counterexample :
    (runDirectory (fun _ => true) Controller.new
        [DirectoryCall.register ⟨1, "a", 10⟩, DirectoryCall.register ⟨2, "b", 10⟩]
      = some ({ Controller.new with
                providers := [("b", ⟨2, "b", 10⟩), ("a", ⟨1, "a", 10⟩)]
                provider_connection_map := [(10, "b")] }, []) ∧
      ¬ Consistent { Controller.new with
                providers := [("b", ⟨2, "b", 10⟩), ("a", ⟨1, "a", 10⟩)]
                provider_connection_map := [(10, "b")] }) ∧
    (runDirectory (fun _ => true) Controller.new
        [DirectoryCall.register ⟨1, "a", 10⟩, DirectoryCall.register ⟨2, "a", 20⟩,
         DirectoryCall.unregister "a" ""]
      = some ({ Controller.new with
                providers := []
                provider_connection_map := [(10, "a")] },
              [Event.send 20 (Message.disconnect ""), Event.delete_provider ⟨2, "a", 20⟩]) ∧
      ¬ Consistent { Controller.new with
                providers := []
                provider_connection_map := [(10, "a")] }) := by
  refine ⟨⟨by decide, ?_⟩, ⟨by decide, ?_⟩⟩
  · intro h
    have h2 := (h.2 "a" ⟨1, "a", 10⟩ (by decide)).2
    revert h2
    decide
  · intro h
    obtain ⟨p, hp, _⟩ := (h.1 10 "a").1 (by decide)
    simp [StdMap.find] at hp

/-! ## What unregister_provider guarantees when its behaviour is defined -/

/-- The call has defined behaviour exactly when the name is not registered or
the connection of its provider has an entry in the inverse index. -/
theorem unregister_provider_defined_iff (f : Connection → Bool) (s : Controller)
    (n reason : String) :
    (s.unregister_provider f n reason).isSome = true ↔
      ∀ p, s.get_provider n = some p →
        (StdMap.find s.provider_connection_map p.get_connection).isSome = true := by
  unfold Controller.get_provider
  cases hp : StdMap.find s.providers n with
  | none => simp [Controller.unregister_provider_absent f s n reason hp]
  | some p =>
    cases hc : StdMap.find s.provider_connection_map p.get_connection with
    | none =>
      simp [Controller.unregister_provider_undefined f s n reason p hp hc, hc]
    | some m =>
      simp [Controller.unregister_provider_found f s n reason p m hp hc, hc]

/-- A completed call leaves the name unregistered and the connection of its
former provider without an inverse entry. -/
theorem unregister_provider_removes (f : Connection → Bool) (s s' : Controller)
    (n reason : String) (events : List Event)
    (h : s.unregister_provider f n reason = some (s', events)) :
    s'.get_provider n = none ∧
      ∀ p, s.get_provider n = some p →
        StdMap.find s'.provider_connection_map p.get_connection = none ∧
        s'.get_provider_name p.get_connection = "" := by
  unfold Controller.get_provider
  cases hp : StdMap.find s.providers n with
  | none =>
    rw [Controller.unregister_provider_absent f s n reason hp] at h
    cases h
    exact ⟨hp, fun p hp' => by cases hp'⟩
  | some p =>
    cases hc : StdMap.find s.provider_connection_map p.get_connection with
    | none =>
      rw [Controller.unregister_provider_undefined f s n reason p hp hc] at h
      cases h
    | some m =>
      rw [Controller.unregister_provider_found f s n reason p m hp hc] at h
      cases h
      refine ⟨StdMap.find_erase_self _ _, ?_⟩
      intro q hq
      cases hq
      simp [Controller.get_provider_name, StdMap.find_erase_self]

/-- A completed call changes the forward map at no other name. -/
theorem unregister_provider_frame (f : Connection → Bool) (s s' : Controller)
    (n reason : String) (events : List Event) (m : String) (hm : m ≠ n)
    (h : s.unregister_provider f n reason = some (s', events)) :
    s'.get_provider m = s.get_provider m := by
  unfold Controller.get_provider
  cases hp : StdMap.find s.providers n with
  | none =>
    rw [Controller.unregister_provider_absent f s n reason hp] at h
    cases h
    rfl
  | some p =>
    cases hc : StdMap.find s.provider_connection_map p.get_connection with
    | none =>
      rw [Controller.unregister_provider_undefined f s n reason p hp hc] at h
      cases h
    | some k =>
      rw [Controller.unregister_provider_found f s n reason p k hp hc] at h
      cases h
      exact StdMap.find_erase_ne _ hm

/-- With two providers registered under distinct names on distinct connections,
unregistering the first has defined behaviour and keeps the second, in the
forward map and in the inverse index. -/
theorem unregister_one_of_two (f : Connection → Bool) (s : Controller)
    (p q : ServiceProvider) (reason : String)
    (hn : p.get_name ≠ q.get_name) (hc : p.get_connection ≠ q.get_connection) :
    ∃ s' events,
      ((s.register_provider p).register_provider q).unregister_provider f p.get_name reason
        = some (s', events) ∧
      s'.get_provider p.get_name = none ∧
      s'.get_provider q.get_name = some q ∧
      StdMap.find s'.provider_connection_map q.get_connection = some q.get_name := by
  have hp : StdMap.find ((s.register_provider p).register_provider q).providers p.get_name
      = some p := by
    simp only [Controller.register_provider]
    rw [StdMap.find_assign_ne _ _ hn, StdMap.find_assign_self]
  have hpc : StdMap.find ((s.register_provider p).register_provider q).provider_connection_map
      p.get_connection = some p.get_name := by
    simp only [Controller.register_provider]
    rw [StdMap.find_assign_ne _ _ hc, StdMap.find_assign_self]
  refine ⟨_, _, Controller.unregister_provider_found f _ _ reason p _ hp hpc, ?_, ?_, ?_⟩
  · exact StdMap.find_erase_self _ _
  · simp only [Controller.get_provider, Controller.register_provider]
    rw [StdMap.find_erase_ne _ (Ne.symm hn), StdMap.find_assign_self]
  · simp only [Controller.register_provider]
    rw [StdMap.find_erase_ne _ (Ne.symm hc), StdMap.find_assign_self]

/-! ## C2: unregister_provider on every reachable state -/

/-- C2 at its failing input. After providers "a" and "b" are registered on the
same connection 10 and "a" is unregistered, "b" is still registered but
connection 10 has no inverse entry (it was erased with "a"); the call
unregister_provider("b") then erases `provider_connection_map.end()`, which is
undefined behaviour, so no state follows in which get_provider("b") is absent. -/
theorem unregister_provider_undefined_after_shared_connection :
    runDirectory (fun _ => true) Controller.new
        [DirectoryCall.register ⟨1, "a", 10⟩, DirectoryCall.register ⟨2, "b", 10⟩,
         DirectoryCall.unregister "a" ""]
      = some ({ Controller.new with
                providers := [("b", ⟨2, "b", 10⟩)]
                provider_connection_map := [] },
              [Event.send 10 (Message.disconnect ""), Event.delete_provider ⟨1, "a", 10⟩]) ∧
    Controller.get_provider { Controller.new with
                providers := [("b", ⟨2, "b", 10⟩)]
                provider_connection_map := [] } "b" = some ⟨2, "b", 10⟩ ∧
    Controller.unregister_provider (fun _ => true) { Controller.new with
                providers := [("b", ⟨2, "b", 10⟩)]
                provider_connection_map := [] } "b" "" = none := by
  decide

/-! ## C3, C4: destroy_connection -/

/-- What destroy_connection does for a connection bound to a provider that is
registered under a non-empty name, when the inverse index covers the forward
map: it is the unregistration of that provider followed by the deletion of the
connection. -/
theorem destroy_connection_bound (f : Connection → Bool) (s : Controller)
    (c : Connection) (reason n : String) (p : ServiceProvider)
    (hcov : InverseCovers s) (hp : s.get_provider n = some p)
    (hc : p.get_connection = c) (hn : n ≠ "") :
    s.unregister_provider f n reason =
        some ({ s with
                provider_connection_map := StdMap.erase s.provider_connection_map c
                providers := StdMap.erase s.providers n },
              Controller.unregister_events f p reason) ∧
    s.destroy_connection f c reason =
        some ({ s with
                provider_connection_map := StdMap.erase s.provider_connection_map c
                providers := StdMap.erase s.providers n },
              Controller.unregister_events f p reason ++ [Event.delete_connection c]) := by
  have hinv : StdMap.find s.provider_connection_map c = some n := by
    rw [← hc]; exact hcov n p hp
  have hun := Controller.unregister_provider_found f s n reason p n hp (by rw [hc]; exact hinv)
  rw [hc] at hun
  refine ⟨hun, ?_⟩
  simp [Controller.destroy_connection, Controller.get_provider_name, hinv, hn, hun]

/-- C3, as the code has it: in every state whose inverse index maps the
connection of each registered provider to the name it is registered under (so
in every consistent directory), for every connection c bound to a provider
registered under a non-empty name, destroy_connection(c, reason) has defined
behaviour and first unregisters that provider; afterwards the provider is gone,
no provider of the forward map has connection c, and the inverse index has no
entry for c. -/
theorem destroy_connection_clears_directory (f : Connection → Bool) (s : Controller)
    (c : Connection) (reason n : String) (p : ServiceProvider)
    (hcov : InverseCovers s) (hp : s.get_provider n = some p)
    (hc : p.get_connection = c) (hn : n ≠ "") :
    ∃ s' events,
      s.unregister_provider f n reason = some (s', events) ∧
      s.destroy_connection f c reason = some (s', events ++ [Event.delete_connection c]) ∧
      s'.get_provider n = none ∧
      (∀ m q, s'.get_provider m = some q → q.get_connection ≠ c) ∧
      StdMap.find s'.provider_connection_map c = none ∧
      s'.get_provider_name c = "" := by
  obtain ⟨hun, hde⟩ := destroy_connection_bound f s c reason n p hcov hp hc hn
  refine ⟨_, _, hun, hde, StdMap.find_erase_self _ _, ?_, StdMap.find_erase_self _ _, ?_⟩
  · intro m q hq hqc
    by_cases hm : m = n
    · subst hm
      simp [Controller.get_provider, StdMap.find_erase_self] at hq
    · simp only [Controller.get_provider, StdMap.find_erase_ne _ hm] at hq
      have h1 := hcov m q hq
      have h2 := hcov n p hp
      rw [hqc] at h1
      rw [hc, h1] at h2
      cases h2
      exact hm rfl
  · simp [Controller.get_provider_name, StdMap.find_erase_self]

theorem inverseCovers_register_new (p : ServiceProvider) :
    InverseCovers (Controller.new.register_provider p) :=
  (consistent_register consistent_new (by simp [admissible, Controller.new, StdMap.find])).inverseCovers

theorem destroy_connection_clears_directory_witness :
    InverseCovers (Controller.new.register_provider ⟨1, "a", 10⟩) ∧
    (Controller.new.register_provider ⟨1, "a", 10⟩).get_provider "a" = some ⟨1, "a", 10⟩ ∧
    ∃ s' events,
      (Controller.new.register_provider ⟨1, "a", 10⟩).unregister_provider
          (fun _ => true) "a" "idle" = some (s', events) ∧
      (Controller.new.register_provider ⟨1, "a", 10⟩).destroy_connection
          (fun _ => true) 10 "idle" = some (s', events ++ [Event.delete_connection 10]) ∧
      s'.get_provider "a" = none ∧
      (∀ m q, s'.get_provider m = some q → q.get_connection ≠ 10) ∧
      StdMap.find s'.provider_connection_map 10 = none ∧
      s'.get_provider_name 10 = "" :=
  ⟨inverseCovers_register_new _, by decide,
    destroy_connection_clears_directory (fun _ => true) _ 10 "idle" "a" ⟨1, "a", 10⟩
      (inverseCovers_register_new _) (by decide) (by decide) (by decide)⟩

/-- C3 fails as stated. A provider registered under the empty name is not
unregistered by destroy_connection, because the empty string is what
get_provider_name returns for an unbound connection: the directory still
references connection 10 afterwards. And with two providers "a" and "b" on
connection 10, destroy_connection(10) unregisters only "b", the one the inverse
index names: "a" stays in the forward map, bound to the deleted connection. -/
theorem destroy_connection_leaves_reference_counterexample :
    ((Controller.new.register_provider ⟨1, "", 10⟩).destroy_connection (fun _ => true) 10 "idle"
        = some (Controller.new.register_provider ⟨1, "", 10⟩, [Event.delete_connection 10]) ∧
      (Controller.new.register_provider ⟨1, "", 10⟩).get_provider "" = some ⟨1, "", 10⟩ ∧
      StdMap.find (Controller.new.register_provider ⟨1, "", 10⟩).provider_connection_map 10
        = some "") ∧
    (((Controller.new.register_provider ⟨1, "a", 10⟩).register_provider
          ⟨2, "b", 10⟩).destroy_connection (fun _ => true) 10 "idle"
        = some ({ Controller.new with
                  providers := [("a", ⟨1, "a", 10⟩)]
                  provider_connection_map := [] },
                [Event.send 10 (Message.disconnect "idle"), Event.delete_provider ⟨2, "b", 10⟩,
                 Event.delete_connection 10]) ∧
      Controller.get_provider { Controller.new with
                  providers := [("a", ⟨1, "a", 10⟩)]
                  provider_connection_map := [] } "a" = some ⟨1, "a", 10⟩) := by
  decide

/-- C4, as the code has it: in every state whose inverse index maps the
connection of each registered provider to the name it is registered under, for
every connection c bound to a provider registered under a non-empty name,
destroy_connection(c, reason) has defined behaviour and its events are, in
order: the disconnect message for reason sent on c when c is connected (nothing
when it is not), the deletion of the provider, the deletion of c. So the
messages sent are that one message on c, or none, and the send precedes the
release of c. -/
theorem destroy_connection_sends_once (f : Connection → Bool) (s : Controller)
    (c : Connection) (reason n : String) (p : ServiceProvider)
    (hcov : InverseCovers s) (hp : s.get_provider n = some p)
    (hc : p.get_connection = c) (hn : n ≠ "") :
    ∃ s' events,
      s.destroy_connection f c reason = some (s', events) ∧
      events =
        (if f c then [Event.send c (DisconnectMessageFactory.generate reason)] else []) ++
          [Event.delete_provider p, Event.delete_connection c] ∧
      sends events =
        (if f c then [(c, DisconnectMessageFactory.generate reason)] else []) := by
  obtain ⟨_, hde⟩ := destroy_connection_bound f s c reason n p hcov hp hc hn
  refine ⟨_, _, hde, ?_, ?_⟩
  · simp [Controller.unregister_events, hc]
  · cases hf : f c <;> simp [Controller.unregister_events, hc, hf, sends]

theorem destroy_connection_sends_once_witness :
    InverseCovers (Controller.new.register_provider ⟨7, "printer", 4⟩) ∧
    (Controller.new.register_provider ⟨7, "printer", 4⟩).get_provider "printer"
      = some ⟨7, "printer", 4⟩ ∧
    ∃ s' events,
      (Controller.new.register_provider ⟨7, "printer", 4⟩).destroy_connection
          (fun _ => true) 4 "timeout" = some (s', events) ∧
      events =
        [Event.send 4 (DisconnectMessageFactory.generate "timeout"),
         Event.delete_provider ⟨7, "printer", 4⟩, Event.delete_connection 4] ∧
      sends events = [(4, DisconnectMessageFactory.generate "timeout")] :=
  ⟨inverseCovers_register_new _, by decide,
    destroy_connection_sends_once (fun _ => true) _ 4 "timeout" "printer" ⟨7, "printer", 4⟩
      (inverseCovers_register_new _) (by decide) (by decide) (by decide)⟩

/-- C4 fails as stated. For a connected connection bound to a provider with the
empty name, destroy_connection sends nothing. And when the inverse index names,
for connection 10, a provider that is bound to connection 20 (name "a" was
registered on 10 and then again on 20, while "b" is registered on 10),
destroy_connection(10) sends its one message on connection 20 and none on 10. -/
theorem destroy_connection_send_counterexample :
    (Controller.new.register_provider ⟨1, "", 10⟩).destroy_connection (fun _ => true) 10 "idle"
        = some (Controller.new.register_provider ⟨1, "", 10⟩, [Event.delete_connection 10]) ∧
    (((Controller.new.register_provider ⟨3, "b", 10⟩).register_provider
          ⟨1, "a", 10⟩).register_provider ⟨2, "a", 20⟩).get_provider "b" = some ⟨3, "b", 10⟩ ∧
    (((Controller.new.register_provider ⟨3, "b", 10⟩).register_provider
          ⟨1, "a", 10⟩).register_provider ⟨2, "a", 20⟩).destroy_connection
          (fun _ => true) 10 "idle"
        = some ({ Controller.new with
                  providers := [("b", ⟨3, "b", 10⟩)]
                  provider_connection_map := [(10, "a")] },
                [Event.send 20 (Message.disconnect "idle"), Event.delete_provider ⟨2, "a", 20⟩,
                 Event.delete_connection 10]) := by
  decide

/-! ## C5: register_provider -/

/-- C5: for every Controller state and every provider p, after
register_provider(p) get_provider(p.get_name()) returns p and the inverse index
maps p.get_connection() to p.get_name(), whatever was registered under that name
or on that connection before. -/
theorem register_provider_registers (s : Controller) (p : ServiceProvider) :
    (s.register_provider p).get_provider p.get_name = some p ∧
    StdMap.find (s.register_provider p).provider_connection_map p.get_connection
      = some p.get_name := by
  exact ⟨StdMap.find_assign_self _ _ _, StdMap.find_assign_self _ _ _⟩

/-! ## C6: the other providers -/

/-- C6 at its failing input. With "a" and "b" registered on connection 10, "c" on
connection 30, and "a" unregistered, get_provider("c") returns its provider, but
unregister_provider("b") erases `provider_connection_map.end()` (connection 10
lost its inverse entry with "a"): undefined behaviour, so there is no state
after the call in which get_provider("c") could be compared. -/
theorem unregister_provider_frame_undefined :
    runDirectory (fun _ => false) Controller.new
        [DirectoryCall.register ⟨1, "a", 10⟩, DirectoryCall.register ⟨2, "b", 10⟩,
         DirectoryCall.register ⟨3, "c", 30⟩, DirectoryCall.unregister "a" ""]
      = some ({ Controller.new with
                providers := [("c", ⟨3, "c", 30⟩), ("b", ⟨2, "b", 10⟩)]
                provider_connection_map := [(30, "c")] },
              [Event.delete_provider ⟨1, "a", 10⟩]) ∧
    Controller.get_provider { Controller.new with
                providers := [("c", ⟨3, "c", 30⟩), ("b", ⟨2, "b", 10⟩)]
                provider_connection_map := [(30, "c")] } "c" = some ⟨3, "c", 30⟩ ∧
    Controller.unregister_provider (fun _ => false) { Controller.new with
                providers := [("c", ⟨3, "c", 30⟩), ("b", ⟨2, "b", 10⟩)]
                provider_connection_map := [(30, "c")] } "b" "" = none := by
  decide

/-! ## C7: what unregister_provider does for a registered name -/

/-- For a registered name whose provider's connection has an inverse entry,
unregister_provider sends the disconnect message for reason on that connection
when it is connected, deletes the provider, and erases both entries. -/
theorem unregister_provider_registered (f : Connection → Bool) (s : Controller)
    (n reason : String) (p : ServiceProvider)
    (hp : s.get_provider n = some p)
    (hc : (StdMap.find s.provider_connection_map p.get_connection).isSome = true) :
    ∃ s',
      s.unregister_provider f n reason =
        some (s',
          (if f p.get_connection then
              [Event.send p.get_connection (DisconnectMessageFactory.generate reason)]
            else []) ++ [Event.delete_provider p]) ∧
      s'.get_provider n = none ∧
      StdMap.find s'.provider_connection_map p.get_connection = none := by
  obtain ⟨m, hm⟩ := Option.isSome_iff_exists.1 hc
  exact ⟨_, Controller.unregister_provider_found f s n reason p m hp hm,
    StdMap.find_erase_self _ _, StdMap.find_erase_self _ _⟩

/-- With the reason left out, the message sent carries the empty string. -/
theorem unregister_provider_default_registered (f : Connection → Bool) (s : Controller)
    (n : String) (p : ServiceProvider)
    (hp : s.get_provider n = some p)
    (hc : (StdMap.find s.provider_connection_map p.get_connection).isSome = true) :
    ∃ s',
      s.unregister_provider_default f n =
        some (s',
          (if f p.get_connection then
              [Event.send p.get_connection (DisconnectMessageFactory.generate "")]
            else []) ++ [Event.delete_provider p]) ∧
      s'.get_provider n = none ∧
      StdMap.find s'.provider_connection_map p.get_connection = none :=
  unregister_provider_registered f s n "" p hp hc

/-- C7 at its failing input. "scanner" is registered (get_provider returns its
provider), but its connection 4 has no inverse entry: the entry was erased when
"printer", registered on the same connection, was unregistered. Whether or not
connection 4 is connected, unregister_provider("scanner", reason) ends in the
erasure of `provider_connection_map.end()`, undefined behaviour, instead of the
removal of the entries. -/
theorem unregister_provider_registered_undefined :
    runDirectory (fun _ => true) Controller.new
        [DirectoryCall.register ⟨1, "printer", 4⟩, DirectoryCall.register ⟨2, "scanner", 4⟩,
         DirectoryCall.unregister "printer" "shutdown"]
      = some ({ Controller.new with
                providers := [("scanner", ⟨2, "scanner", 4⟩)]
                provider_connection_map := [] },
              [Event.send 4 (Message.disconnect "shutdown"),
               Event.delete_provider ⟨1, "printer", 4⟩]) ∧
    Controller.get_provider { Controller.new with
                providers := [("scanner", ⟨2, "scanner", 4⟩)]
                provider_connection_map := [] } "scanner" = some ⟨2, "scanner", 4⟩ ∧
    Controller.unregister_provider (fun _ => true) { Controller.new with
                providers := [("scanner", ⟨2, "scanner", 4⟩)]
                provider_connection_map := [] } "scanner" "shutdown" = none ∧
    Controller.unregister_provider (fun _ => false) { Controller.new with
                providers := [("scanner", ⟨2, "scanner", 4⟩)]
                provider_connection_map := [] } "scanner" "shutdown" = none ∧
    Controller.unregister_provider_default (fun _ => true) { Controller.new with
                providers := [("scanner", ⟨2, "scanner", 4⟩)]
                provider_connection_map := [] } "scanner" = none := by
  decide

/-! ## Identifiers: the counter next_client_id -/

theorem wrapInt_eq (x : Int) (h1 : -2147483648 ≤ x) (h2 : x < 2147483648) :
    wrapInt x = x := by
  unfold wrapInt
  omega

theorem wrapInt_ge (x : Int) : -2147483648 ≤ wrapInt x := by
  unfold wrapInt
  omega

theorem wrapLong_eq (x : Int) (h1 : -9223372036854775808 ≤ x)
    (h2 : x < 9223372036854775808) : wrapLong x = x := by
  unfold wrapLong
  omega

theorem addAll_append (l₁ l₂ : List AddCall) :
    ∀ s : Controller,
      addAll s (l₁ ++ l₂) =
        ((addAll (addAll s l₁).1 l₂).1, (addAll s l₁).2 ++ (addAll (addAll s l₁).1 l₂).2) := by
  induction l₁ with
  | nil => intro s; rfl
  | cons a rest ih =>
    intro s
    rw [List.cons_append]
    simp only [addAll]
    rw [ih]
    rfl

/-- While the counter stays below 2^31 it counts the calls. -/
theorem addAll_next (calls : List AddCall) :
    ∀ s : Controller, -2147483648 ≤ s.next_client_id →
      s.next_client_id + calls.length < 2147483648 →
      (addAll s calls).1.next_client_id = s.next_client_id + calls.length := by
  induction calls with
  | nil => intro s _ _; simp [addAll]
  | cons a rest ih =>
    intro s hlo hhi
    simp only [List.length_cons, Nat.cast_add, Nat.cast_one] at hhi
    have hstep : (s.add_connection a.now a.connection a.expiration).next_client_id
        = s.next_client_id + 1 := by
      simp only [Controller.add_connection]
      exact wrapInt_eq _ (by omega) (by omega)
    have := ih (s.add_connection a.now a.connection a.expiration)
      (by rw [hstep]; omega) (by rw [hstep]; omega)
    simp only [addAll, this, hstep, List.length_cons, Nat.cast_add, Nat.cast_one]
    omega

/-- While the counter does not pass 2^31 - 1, the identifiers handed out lie
between its first value and its first value plus the number of calls. -/
theorem addAll_ids_bounds (calls : List AddCall) :
    ∀ s : Controller, -2147483648 ≤ s.next_client_id →
      s.next_client_id + calls.length ≤ 2147483648 →
      ∀ id ∈ (addAll s calls).2,
        s.next_client_id ≤ id ∧ id < s.next_client_id + calls.length := by
  induction calls with
  | nil => intro s _ _ id hid; simp [addAll] at hid
  | cons a rest ih =>
    intro s hlo hhi id hid
    simp only [List.length_cons, Nat.cast_add, Nat.cast_one] at hhi ⊢
    simp only [addAll, List.mem_cons] at hid
    rcases hid with hid | hid
    · subst hid; omega
    · cases rest with
      | nil => simp [addAll] at hid
      | cons b rest' =>
        simp only [List.length_cons, Nat.cast_add, Nat.cast_one] at hhi ih ⊢
        have hstep : (s.add_connection a.now a.connection a.expiration).next_client_id
            = s.next_client_id + 1 := by
          simp only [Controller.add_connection]
          exact wrapInt_eq _ (by omega) (by omega)
        have := ih (s.add_connection a.now a.connection a.expiration)
          (by rw [hstep]; omega) (by rw [hstep]; omega) id hid
        rw [hstep] at this
        omega

theorem addAll_ids_pairwise (calls : List AddCall) :
    ∀ s : Controller, -2147483648 ≤ s.next_client_id →
      s.next_client_id + calls.length ≤ 2147483648 →
      (addAll s calls).2.Pairwise (· < ·) := by
  induction calls with
  | nil => intro s _ _; simp [addAll]
  | cons a rest ih =>
    intro s hlo hhi
    simp only [List.length_cons, Nat.cast_add, Nat.cast_one] at hhi
    simp only [addAll, List.pairwise_cons]
    cases rest with
    | nil => simp [addAll]
    | cons b rest' =>
      simp only [List.length_cons, Nat.cast_add, Nat.cast_one] at hhi ih
      have hstep : (s.add_connection a.now a.connection a.expiration).next_client_id
          = s.next_client_id + 1 := by
        simp only [Controller.add_connection]
        exact wrapInt_eq _ (by omega) (by omega)
      constructor
      · intro id hid
        have := addAll_ids_bounds (b :: rest')
          (s.add_connection a.now a.connection a.expiration)
          (by rw [hstep]; omega)
          (by rw [hstep]; simp only [List.length_cons, Nat.cast_add, Nat.cast_one]; omega)
          id hid
        rw [hstep] at this
        omega
      · exact ih (s.add_connection a.now a.connection a.expiration)
          (by rw [hstep]; omega) (by rw [hstep]; omega)

/-- The registry while the counter has not wrapped: the counter holds `m`
(wrapped), and every entry has a key from 100 up to `m`, excluded, which is
also the identifier of its descriptor. -/
theorem addAll_registry (calls : List AddCall) :
    ∀ (s : Controller) (m : Int), s.next_client_id = wrapInt m → 100 ≤ m →
      m + calls.length ≤ 2147483648 →
      (∀ k d, StdMap.find s.connections k = some d → 100 ≤ k ∧ k < m ∧ d.id = k) →
      (addAll s calls).1.next_client_id = wrapInt (m + calls.length) ∧
      ∀ k d, StdMap.find (addAll s calls).1.connections k = some d →
        100 ≤ k ∧ k < m + calls.length ∧ d.id = k := by
  induction calls with
  | nil =>
    intro s m hs _ _ hreg
    simpa [addAll] using ⟨hs, hreg⟩
  | cons a rest ih =>
    intro s m hs hm hlen hreg
    simp only [List.length_cons, Nat.cast_add, Nat.cast_one] at hlen ⊢
    have hsm : s.next_client_id = m := by
      rw [hs]; exact wrapInt_eq m (by omega) (by omega)
    have hfree : StdMap.find s.connections m = none := by
      cases hf : StdMap.find s.connections m with
      | none => rfl
      | some d => have := hreg m d hf; omega
    have hstep := ih (s.add_connection a.now a.connection a.expiration) (m + 1)
      (by simp only [Controller.add_connection, hsm]) (by omega) (by omega)
      (by
        intro k d hk
        simp only [Controller.add_connection, hsm] at hk
        by_cases hkm : k = m
        · subst hkm
          rw [StdMap.find_insert_of_none _ _ _ hfree] at hk
          cases hk
          exact ⟨hm, by omega, rfl⟩
        · rw [StdMap.find_insert_ne _ _ hkm] at hk
          have := hreg k d hk
          omega)
    simp only [addAll]
    rw [show m + (rest.length + 1 : Int) = m + 1 + rest.length by omega]
    exact hstep

/-- Two calls made when the counter holds the largest `int`. -/
theorem addAll_ids_at_int_max (t : Controller) (a b : AddCall)
    (h : t.next_client_id = 2147483647) :
    (addAll t [a, b]).2 = [2147483647, -2147483648] := by
  simp only [addAll, Controller.add_connection, h]
  decide

/-! ## C8: identifiers in call order -/

/-- C8, as the code has it: for every sequence of add_connection calls on a
Controller whose counter next_client_id can take that many increments without
passing 2^31 - 1 (on a freshly constructed Controller: at most 2147483548
calls), the identifiers given to the created descriptors are strictly
increasing in call order, so none is given twice. -/
theorem add_connection_ids_increasing (s : Controller) (calls : List AddCall)
    (hlo : -2147483648 ≤ s.next_client_id)
    (hhi : s.next_client_id + calls.length ≤ 2147483648) :
    (addAll s calls).2.Pairwise (· < ·) ∧ (addAll s calls).2.Nodup := by
  have h := addAll_ids_pairwise calls s hlo hhi
  exact ⟨h, h.imp (fun hab => ne_of_lt hab)⟩

theorem add_connection_ids_increasing_witness :
    (-2147483648 ≤ Controller.new.next_client_id ∧
      Controller.new.next_client_id
        + ([⟨0, 1, 0⟩, ⟨5, 2, -1⟩, ⟨9, 3, 50⟩] : List AddCall).length ≤ 2147483648) ∧
    (addAll Controller.new [⟨0, 1, 0⟩, ⟨5, 2, -1⟩, ⟨9, 3, 50⟩]).2.Pairwise (· < ·) ∧
    (addAll Controller.new [⟨0, 1, 0⟩, ⟨5, 2, -1⟩, ⟨9, 3, 50⟩]).2.Nodup :=
  ⟨by decide, add_connection_ids_increasing Controller.new _ (by decide) (by decide)⟩

/-- C8 fails as stated. Of 2147483549 add_connection calls on a freshly
constructed Controller, the last but one is given the identifier 2147483647,
the largest `int`, and the increment of next_client_id wraps: the last call is
given -2147483648. The identifiers are not increasing. -/
theorem add_connection_ids_wrap_counterexample :
    (addAll Controller.new (List.replicate 2147483547 ⟨0, 1, 5⟩)).1.next_client_id
      = 2147483647 ∧
    (addAll (addAll Controller.new (List.replicate 2147483547 ⟨0, 1, 5⟩)).1
        [⟨0, 1, 5⟩, ⟨0, 1, 5⟩]).2 = [2147483647, -2147483648] ∧
    ¬ (addAll Controller.new (List.replicate 2147483549 ⟨0, 1, 5⟩)).2.Pairwise (· < ·) := by
  have hnext : (addAll Controller.new (List.replicate 2147483547 ⟨0, 1, 5⟩)).1.next_client_id
      = 2147483647 := by
    have h := addAll_next (List.replicate 2147483547 ⟨0, 1, 5⟩) Controller.new
      (by decide) (by rw [List.length_replicate]; decide)
    rw [h, List.length_replicate]
    decide
  have hlast : (addAll (addAll Controller.new (List.replicate 2147483547 ⟨0, 1, 5⟩)).1
      [⟨0, 1, 5⟩, ⟨0, 1, 5⟩]).2 = [2147483647, -2147483648] :=
    addAll_ids_at_int_max _ _ _ hnext
  have hsplit : List.replicate 2147483549 (⟨0, 1, 5⟩ : AddCall)
      = List.replicate 2147483547 ⟨0, 1, 5⟩ ++ [⟨0, 1, 5⟩, ⟨0, 1, 5⟩] := by
    rw [show (2147483549 : Nat) = 2147483547 + 2 from rfl, List.replicate_add]
    rfl
  refine ⟨hnext, hlast, ?_⟩
  rw [hsplit, addAll_append]
  intro h
  have h2 := (List.pairwise_append.1 h).2.1
  rw [hlast] at h2
  revert h2
  decide

/-- What a call stores when the key next_client_id is free. -/
theorem get_connection_add_connection (now : Int) (s : Controller) (c : Connection)
    (e : Int) (h : StdMap.find s.connections s.next_client_id = none) :
    (s.add_connection now c e).get_connection s.next_client_id =
      some (ConnectionDescriptor.new s.next_client_id c
        (if e = 0 then wrapLong (now + s.connection_timeout) else e)) := by
  simp only [Controller.get_connection, Controller.add_connection]
  exact StdMap.find_insert_of_none _ _ _ h

/-- The call made after the identifiers 100 to 2147483647 are used up. -/
theorem add_connection_after_last_id (t : Controller) (now : Int) (c : Connection) (e : Int)
    (hreg : t.next_client_id = wrapInt (100 + ((2147483548 : Nat) : Int)) ∧
      ∀ k d, StdMap.find t.connections k = some d →
        100 ≤ k ∧ k < 100 + ((2147483548 : Nat) : Int) ∧ d.id = k)
    (he : e ≠ 0) :
    t.next_client_id = -2147483648 ∧
    (t.add_connection now c e).get_connection (-2147483648)
      = some ⟨-2147483648, c, e, false⟩ := by
  have hnext : t.next_client_id = -2147483648 := by
    rw [hreg.1]; decide
  have hfree : StdMap.find t.connections (-2147483648) = none := by
    cases hf : StdMap.find t.connections (-2147483648) with
    | none => rfl
    | some d => exact absurd (hreg.2 _ d hf).1 (by decide)
  have h := get_connection_add_connection now t c e (by rw [hnext]; exact hfree)
  rw [hnext, if_neg he] at h
  exact ⟨hnext, h⟩

/-! ## C9: the base identifier 100 -/

/-- C9, as the code has it: the first add_connection on a freshly constructed
Controller creates the descriptor with identifier 100, and in every state
reached from it by at most 2147483548 add_connection calls (2^31 - 100: the
counter has not wrapped) every registry entry has a key of at least 100 that is
the identifier of its descriptor. -/
theorem add_connection_ids_from_100 (a : AddCall) (calls : List AddCall)
    (h : calls.length ≤ 2147483548) :
    (addAll Controller.new [a]).2 = [100] ∧
    (∃ d, (Controller.new.add_connection a.now a.connection a.expiration).get_connection 100
        = some d ∧ d.get_id = 100 ∧ d.get_connection = a.connection) ∧
    ∀ k d, (addAll Controller.new calls).1.get_connection k = some d →
      100 ≤ k ∧ d.get_id = k ∧ 100 ≤ d.get_id := by
  refine ⟨rfl, ⟨_, get_connection_add_connection a.now Controller.new _ _ rfl, rfl, rfl⟩, ?_⟩
  intro k d hk
  have hreg := (addAll_registry calls Controller.new 100 (by decide) (by decide)
    (by omega) (by intro k d hk; simp [Controller.new, StdMap.find] at hk)).2 k d hk
  simp only [ConnectionDescriptor.get_id]
  omega

theorem add_connection_ids_from_100_witness :
    ([⟨0, 1, 0⟩, ⟨5, 2, -1⟩] : List AddCall).length ≤ 2147483548 ∧
    (addAll Controller.new [⟨7, 3, 0⟩]).2 = [100] ∧
    (∃ d, (Controller.new.add_connection 7 3 0).get_connection 100
        = some d ∧ d.get_id = 100 ∧ d.get_connection = 3) ∧
    ∀ k d, (addAll Controller.new [⟨0, 1, 0⟩, ⟨5, 2, -1⟩]).1.get_connection k = some d →
      100 ≤ k ∧ d.get_id = k ∧ 100 ≤ d.get_id :=
  ⟨by decide, add_connection_ids_from_100 ⟨7, 3, 0⟩ [⟨0, 1, 0⟩, ⟨5, 2, -1⟩] (by decide)⟩

/-- C9 fails as stated. After 2147483548 add_connection calls on a freshly
constructed Controller the identifiers 100 to 2147483647 are used up and the
counter has wrapped to -2147483648; the next call stores its descriptor under
that identifier, which is below 100. -/
theorem add_connection_id_below_100_counterexample :
    (addAll Controller.new (List.replicate 2147483548 ⟨0, 1, 5⟩)).1.next_client_id
      = -2147483648 ∧
    ((addAll Controller.new (List.replicate 2147483548 ⟨0, 1, 5⟩)).1.add_connection
        0 1 5).get_connection (-2147483648) = some ⟨-2147483648, 1, 5, false⟩ := by
  have hreg := addAll_registry (List.replicate 2147483548 ⟨0, 1, 5⟩) Controller.new 100
    (by decide) (by decide) (by rw [List.length_replicate]; decide)
    (by intro k d hk; simp [Controller.new, StdMap.find] at hk)
  rw [List.length_replicate] at hreg
  exact add_connection_after_last_id _ 0 1 5 hreg (by decide)

/-! ## C11: is_expired -/

/-- C11: for every descriptor and every time t, is_expired(t) is true exactly
when expiration > 0 and t > expiration, hence false whenever expiration <= 0
and false at t == expiration; and it is the same for every descriptor with that
expiration, whatever its identifier, connection and processing flag. -/
theorem is_expired_iff (d : ConnectionDescriptor) (t : Int) :
    (d.is_expired t = true ↔ 0 < d.get_expiration ∧ d.get_expiration < t) ∧
    (d.is_expired t = false ↔ d.get_expiration ≤ 0 ∨ t ≤ d.get_expiration) ∧
    (∀ (id : Int) (c : Connection) (p : Bool),
      (ConnectionDescriptor.mk id c d.get_expiration p).is_expired t = d.is_expired t) := by
  refine ⟨?_, ?_, fun _ _ _ => rfl⟩
  · simp [ConnectionDescriptor.is_expired, ConnectionDescriptor.get_expiration]
  · simp only [ConnectionDescriptor.is_expired, ConnectionDescriptor.get_expiration,
      Bool.and_eq_false_iff, decide_eq_false_iff_not, not_lt, gt_iff_lt]

/-! ## C12, C13: the expiration a connection is added with -/

/-- C12: for every negative e, every idle timeout (that of the state s) and every
time t, in a state whose key next_client_id is free, the descriptor that
add_connection(c, e) stores has expiration e and is_expired(t) == false, so it
never meets the reaping condition `!is_being_processed() && is_expired(t)`. -/
theorem add_connection_negative_never_expires (now : Int) (s : Controller)
    (c : Connection) (e : Int) (he : e < 0)
    (hfree : s.get_connection s.next_client_id = none) :
    ∃ d, (s.add_connection now c e).get_connection s.next_client_id = some d ∧
      d.get_expiration = e ∧
      ∀ t, d.is_expired t = false ∧ (!d.is_being_processed && d.is_expired t) = false := by
  refine ⟨_, get_connection_add_connection now s c e hfree, ?_, ?_⟩
  · simp [ConnectionDescriptor.get_expiration, ConnectionDescriptor.new, ne_of_lt he]
  · intro t
    have h : (ConnectionDescriptor.new s.next_client_id c
        (if e = 0 then wrapLong (now + s.connection_timeout) else e)).is_expired t = false := by
      simp only [ConnectionDescriptor.is_expired, ConnectionDescriptor.new, ne_of_lt he,
        if_false, Bool.and_eq_false_iff, decide_eq_false_iff_not]
      left; omega
    exact ⟨h, by simp [h]⟩

theorem add_connection_negative_never_expires_witness :
    ((-1 : Int) < 0 ∧ Controller.new.get_connection Controller.new.next_client_id = none) ∧
    ∃ d, (Controller.new.add_connection 1000 7 (-1)).get_connection
          Controller.new.next_client_id = some d ∧
      d.get_expiration = -1 ∧
      ∀ t, d.is_expired t = false ∧ (!d.is_being_processed && d.is_expired t) = false :=
  ⟨by decide, add_connection_negative_never_expires 1000 Controller.new 7 (-1)
    (by decide) (by decide)⟩

/-- C13, as the code has it: for every current time now greater than 1 and every
idle timeout, in a state whose key next_client_id is free, the descriptor that
add_connection(c, now - 1) stores has is_being_processed() == false and
is_expired(now) == true: it meets the reaping condition. -/
theorem add_connection_now_minus_one_expired (now : Int) (s : Controller)
    (c : Connection) (hnow : 1 < now)
    (hfree : s.get_connection s.next_client_id = none) :
    ∃ d, (s.add_connection now c (now - 1)).get_connection s.next_client_id = some d ∧
      d.get_expiration = now - 1 ∧
      d.is_being_processed = false ∧ d.is_expired now = true ∧
      (!d.is_being_processed && d.is_expired now) = true := by
  have hne : ¬ (now - 1 = 0) := by omega
  refine ⟨_, get_connection_add_connection now s c (now - 1) hfree, ?_, rfl, ?_, ?_⟩
  · simp [ConnectionDescriptor.get_expiration, ConnectionDescriptor.new, hne]
  · simp only [ConnectionDescriptor.is_expired, ConnectionDescriptor.new, hne, if_false,
      Bool.and_eq_true, decide_eq_true_eq]
    omega
  · simp only [ConnectionDescriptor.is_being_processed,
      ConnectionDescriptor.is_expired, ConnectionDescriptor.new, hne, if_false,
      Bool.not_false, Bool.true_and, Bool.and_eq_true, decide_eq_true_eq]
    omega

theorem add_connection_now_minus_one_expired_witness :
    ((1 : Int) < 1000 ∧ Controller.new.get_connection Controller.new.next_client_id = none) ∧
    ∃ d, (Controller.new.add_connection 1000 7 (1000 - 1)).get_connection
          Controller.new.next_client_id = some d ∧
      d.get_expiration = 1000 - 1 ∧
      d.is_being_processed = false ∧ d.is_expired 1000 = true ∧
      (!d.is_being_processed && d.is_expired 1000) = true :=
  ⟨by decide, add_connection_now_minus_one_expired 1000 Controller.new 7
    (by decide) (by decide)⟩

/-- C13 fails as stated. At now = 1 the expiration now - 1 is 0, which
add_connection replaces by now + idle timeout = 601: the descriptor is not
expired at time 1. At now = 0 the expiration is -1, which never expires. -/
theorem add_connection_now_minus_one_counterexample :
    ((Controller.new.add_connection 1 7 (1 - 1)).get_connection 100
        = some ⟨100, 7, 601, false⟩ ∧
      ConnectionDescriptor.is_expired ⟨100, 7, 601, false⟩ 1 = false) ∧
    ((Controller.new.add_connection 0 7 (0 - 1)).get_connection 100
        = some ⟨100, 7, -1, false⟩ ∧
      ConnectionDescriptor.is_expired ⟨100, 7, -1, false⟩ 0 = false) := by
  decide

/-! ## C20: unregistering a name that is not registered -/

/-- C20: for every state and every name with get_provider(name) absent,
unregister_provider(name, reason) has defined behaviour, leaves the whole
state as it is (forward map, inverse index, connection registry,
next_client_id) and has no events: no message is sent on any connection. -/
theorem unregister_provider_unregistered_noop (f : Connection → Bool) (s : Controller)
    (name reason : String) (h : s.get_provider name = none) :
    ∃ s' events, s.unregister_provider f name reason = some (s', events) ∧
      s'.providers = s.providers ∧
      s'.provider_connection_map = s.provider_connection_map ∧
      s'.connections = s.connections ∧
      s'.next_client_id = s.next_client_id ∧
      s' = s ∧ events = [] ∧ sends events = [] :=
  ⟨s, [], Controller.unregister_provider_absent f s name reason h, rfl, rfl, rfl, rfl, rfl,
    rfl, rfl⟩

theorem unregister_provider_unregistered_noop_witness :
    (Controller.new.register_provider ⟨1, "a", 10⟩).get_provider "b" = none ∧
    ∃ s' events,
      (Controller.new.register_provider ⟨1, "a", 10⟩).unregister_provider
          (fun _ => true) "b" "bye" = some (s', events) ∧
      s'.providers = (Controller.new.register_provider ⟨1, "a", 10⟩).providers ∧
      s'.provider_connection_map
        = (Controller.new.register_provider ⟨1, "a", 10⟩).provider_connection_map ∧
      s'.connections = (Controller.new.register_provider ⟨1, "a", 10⟩).connections ∧
      s'.next_client_id = (Controller.new.register_provider ⟨1, "a", 10⟩).next_client_id ∧
      s' = Controller.new.register_provider ⟨1, "a", 10⟩ ∧ events = [] ∧ sends events = [] :=
  ⟨by decide, unregister_provider_unregistered_noop (fun _ => true) _ "b" "bye" (by decide)⟩

/-! ## C15: the idle timeout -/

theorem get_set_idle_connection_timeout (s : Controller) (seconds : Int) :
    (s.set_idle_connection_timeout seconds).get_idle_connection_timeout = seconds := rfl

theorem add_connection_keeps_timeout (now : Int) (s : Controller) (c : Connection) (e : Int) :
    (s.add_connection now c e).get_idle_connection_timeout = s.get_idle_connection_timeout :=
  rfl

theorem register_provider_keeps_timeout (s : Controller) (p : ServiceProvider) :
    (s.register_provider p).get_idle_connection_timeout = s.get_idle_connection_timeout :=
  rfl

/-- A completed unregister_provider call changes nothing but the two directory
maps. -/
theorem unregister_provider_keeps_rest (f : Connection → Bool) (s s' : Controller)
    (n reason : String) (events : List Event)
    (h : s.unregister_provider f n reason = some (s', events)) :
    s'.get_idle_connection_timeout = s.get_idle_connection_timeout ∧
    s'.connections = s.connections ∧
    s'.next_client_id = s.next_client_id ∧
    s'.comm_ifs = s.comm_ifs := by
  cases hp : StdMap.find s.providers n with
  | none =>
    rw [Controller.unregister_provider_absent f s n reason hp] at h
    cases h
    exact ⟨rfl, rfl, rfl, rfl⟩
  | some p =>
    cases hc : StdMap.find s.provider_connection_map p.get_connection with
    | none =>
      rw [Controller.unregister_provider_undefined f s n reason p hp hc] at h
      cases h
    | some m =>
      rw [Controller.unregister_provider_found f s n reason p m hp hc] at h
      cases h
      exact ⟨rfl, rfl, rfl, rfl⟩

theorem runCalls_timeout (f : Connection → Bool) (calls : List ControllerCall) :
    ∀ s s' : Controller, runCalls f s calls = some s' →
      s'.get_idle_connection_timeout = lastTimeout s.get_idle_connection_timeout calls := by
  induction calls with
  | nil =>
    intro s s' h
    simp only [runCalls, Option.some.injEq] at h
    rw [← h]; rfl
  | cons call rest ih =>
    intro s s' h
    cases call with
    | set_idle_connection_timeout t =>
      simp only [runCalls] at h
      simpa [lastTimeout, get_set_idle_connection_timeout] using ih _ _ h
    | add_connection now c e =>
      simp only [runCalls] at h
      simpa [lastTimeout, add_connection_keeps_timeout] using ih _ _ h
    | register_provider p =>
      simp only [runCalls] at h
      simpa [lastTimeout, register_provider_keeps_timeout] using ih _ _ h
    | unregister_provider n r =>
      simp only [runCalls] at h
      cases hu : s.unregister_provider f n r with
      | none => rw [hu] at h; cases h
      | some res =>
        obtain ⟨s₁, ev⟩ := res
        rw [hu] at h
        have := ih _ _ h
        rw [(unregister_provider_keeps_rest f s s₁ n r ev hu).1] at this
        simpa [lastTimeout] using this
    | get_connection id =>
      simp only [runCalls] at h
      simpa [lastTimeout] using ih _ _ h

/-- C15: DefaultIdleConnectionTimeout is 600, and after every sequence of
set_idle_connection_timeout, add_connection, register_provider,
unregister_provider and get_connection calls on a freshly constructed
Controller (every call of it with defined behaviour),
get_idle_connection_timeout returns the argument of the most recent
set_idle_connection_timeout call, or 600 when there was none: the other four
members never change it. -/
theorem idle_timeout_most_recent (f : Connection → Bool) (calls : List ControllerCall)
    (s : Controller) (h : runCalls f Controller.new calls = some s) :
    Controller.DefaultIdleConnectionTimeout = 600 ∧
    Controller.new.get_idle_connection_timeout = 600 ∧
    s.get_idle_connection_timeout = lastTimeout 600 calls :=
  ⟨rfl, rfl, runCalls_timeout f calls Controller.new s h⟩

theorem idle_timeout_most_recent_witness :
    runCalls (fun _ => true) Controller.new
        [ControllerCall.add_connection 5 1 0, ControllerCall.set_idle_connection_timeout 30,
         ControllerCall.register_provider ⟨1, "a", 1⟩,
         ControllerCall.set_idle_connection_timeout 45, ControllerCall.get_connection 100,
         ControllerCall.unregister_provider "a" "bye", ControllerCall.add_connection 9 2 0]
      = some { next_client_id := 102
               connection_timeout := 45
               connections := [(101, ⟨101, 2, 54, false⟩), (100, ⟨100, 1, 605, false⟩)]
               comm_ifs := []
               providers := []
               provider_connection_map := [] } ∧
    Controller.DefaultIdleConnectionTimeout = 600 ∧
    Controller.new.get_idle_connection_timeout = 600 ∧
    Controller.get_idle_connection_timeout
        { next_client_id := 102
          connection_timeout := 45
          connections := [(101, ⟨101, 2, 54, false⟩), (100, ⟨100, 1, 605, false⟩)]
          comm_ifs := []
          providers := []
          provider_connection_map := [] }
      = lastTimeout 600
        [ControllerCall.add_connection 5 1 0, ControllerCall.set_idle_connection_timeout 30,
         ControllerCall.register_provider ⟨1, "a", 1⟩,
         ControllerCall.set_idle_connection_timeout 45, ControllerCall.get_connection 100,
         ControllerCall.unregister_provider "a" "bye", ControllerCall.add_connection 9 2 0] :=
  ⟨by decide, idle_timeout_most_recent (fun _ => true) _ _ (by decide)⟩

/-! ## C16: register_interface -/

theorem register_interface_null (s : Controller) (managed : Bool) :
    s.register_interface 0 managed = (s, some false) := rfl

theorem register_interface_nonnull (s : Controller) (cif : CommIF) (managed : Bool)
    (h : cif ≠ 0) :
    s.register_interface cif managed =
      ({ s with comm_ifs := s.comm_ifs ++ [CommIFDescriptor.mk cif managed] }, none) := by
  simp [Controller.register_interface, h]

/-- C16 at its failing input. For the non-null interface 7, register_interface
appends the descriptor (7, true) to the interface list, and then control
reaches the end of the function without a return statement: no value is
returned, where the claim and the documentation of the function say true. -/
theorem register_interface_returns_nothing :
    Controller.new.register_interface 7 true
      = ({ Controller.new with comm_ifs := [CommIFDescriptor.mk 7 true] }, none) ∧
    (Controller.new.register_interface 7 true).2 ≠ some true ∧
    Controller.new.register_interface 0 true = (Controller.new, some false) := by
  decide

/-! ## C17: idle reaping -/

theorem StdMap.find_erase_some {κ α : Type} [DecidableEq κ] (m : StdMap κ α) (k k' : κ)
    (v : α) (h : StdMap.find (StdMap.erase m k) k' = some v) : StdMap.find m k' = some v := by
  by_cases hk : k' = k
  · subst hk
    rw [StdMap.find_erase_self] at h
    cases h
  · rwa [StdMap.find_erase_ne _ hk] at h

/-- A completed unregister_provider call deletes no connection. -/
theorem unregister_provider_deletes_no_connection (f : Connection → Bool)
    (s s' : Controller) (n reason : String) (events : List Event)
    (h : s.unregister_provider f n reason = some (s', events)) (c : Connection) :
    Event.delete_connection c ∉ events := by
  cases hp : StdMap.find s.providers n with
  | none =>
    rw [Controller.unregister_provider_absent f s n reason hp] at h
    cases h
    simp
  | some p =>
    cases hc : StdMap.find s.provider_connection_map p.get_connection with
    | none =>
      rw [Controller.unregister_provider_undefined f s n reason p hp hc] at h
      cases h
    | some m =>
      rw [Controller.unregister_provider_found f s n reason p m hp hc] at h
      cases h
      cases hf : f p.get_connection <;> simp [Controller.unregister_events, hf]

/-- A completed destroy_connection call leaves the registry as it is and deletes
the connection it is given, and no other. -/
theorem destroy_connection_registry (f : Connection → Bool) (s s' : Controller)
    (c : Connection) (reason : String) (events : List Event)
    (h : s.destroy_connection f c reason = some (s', events)) :
    s'.connections = s.connections ∧
    ∀ c', Event.delete_connection c' ∈ events → c' = c := by
  unfold Controller.destroy_connection at h
  by_cases hn : s.get_provider_name c ≠ ""
  · simp only [hn, ne_eq, not_false_eq_true, if_true] at h
    cases hu : s.unregister_provider f (s.get_provider_name c) reason with
    | none => rw [hu] at h; cases h
    | some res =>
      obtain ⟨s₁, ev⟩ := res
      rw [hu] at h
      simp only [Option.some.injEq, Prod.mk.injEq] at h
      obtain ⟨hs, hev⟩ := h
      subst hs hev
      refine ⟨(unregister_provider_keeps_rest f s s₁ _ reason ev hu).2.1, ?_⟩
      intro c' hc'
      rcases List.mem_append.1 hc' with h1 | h1
      · exact absurd h1 (unregister_provider_deletes_no_connection f s s₁ _ reason ev hu c')
      · simpa using h1
  · simp only [hn, if_false, Option.some.injEq, Prod.mk.injEq] at h
    obtain ⟨hs, hev⟩ := h
    subst hs hev
    exact ⟨rfl, fun c' hc' => by simpa using hc'⟩

/-- A descriptor that does not meet the reaping condition stays in the registry
through a scan. -/
theorem reap_keys_keeps (f : Connection → Bool) (reason : String) (now : Int) (k : Int)
    (d : ConnectionDescriptor) (hd : reapable d now = false) (keys : List Int) :
    ∀ (s s' : Controller) (events : List Event),
      StdMap.find s.connections k = some d →
      reap_keys f reason now keys s = some (s', events) →
      StdMap.find s'.connections k = some d := by
  induction keys with
  | nil =>
    intro s s' events hk h
    simp only [reap_keys, Option.some.injEq, Prod.mk.injEq] at h
    rw [← h.1]; exact hk
  | cons k₀ rest ih =>
    intro s s' events hk h
    unfold reap_keys at h
    cases h₀ : StdMap.find s.connections k₀ with
    | none =>
      rw [h₀] at h
      exact ih s s' events hk h
    | some d₀ =>
      rw [h₀] at h
      by_cases hr : reapable d₀ now = true
      · simp only [hr, if_true] at h
        have hne : k ≠ k₀ := by
          intro heq
          rw [heq, h₀] at hk
          cases hk
          rw [hr] at hd
          cases hd
        cases hdc : s.destroy_connection f d₀.get_connection reason with
        | none => rw [hdc] at h; cases h
        | some res =>
          obtain ⟨s₁, ev₁⟩ := res
          simp only [hdc] at h
          have hreg := (destroy_connection_registry f s s₁ _ reason ev₁ hdc).1
          cases hrest : reap_keys f reason now rest
              { s₁ with connections := StdMap.erase s₁.connections k₀ } with
          | none => simp [hrest] at h
          | some res₂ =>
            obtain ⟨s₂, ev₂⟩ := res₂
            simp only [hrest] at h
            simp only [Option.some.injEq, Prod.mk.injEq] at h
            rw [← h.1]
            refine ih _ s₂ ev₂ ?_ hrest
            show StdMap.find (StdMap.erase s₁.connections k₀) k = some d
            rw [StdMap.find_erase_ne _ hne, hreg]
            exact hk
      · simp only [hr, if_false] at h
        exact ih s s' events hk h

/-- Every connection a scan deletes belongs to a descriptor of the registry that
meets the reaping condition. -/
theorem reap_keys_deletes (f : Connection → Bool) (reason : String) (now : Int)
    (s₀ : Controller) (keys : List Int) :
    ∀ (s s' : Controller) (events : List Event),
      (∀ k d, StdMap.find s.connections k = some d → StdMap.find s₀.connections k = some d) →
      reap_keys f reason now keys s = some (s', events) →
      ∀ c, Event.delete_connection c ∈ events →
        ∃ k d, StdMap.find s₀.connections k = some d ∧ d.get_connection = c ∧
          reapable d now = true := by
  induction keys with
  | nil =>
    intro s s' events _ h c hc
    simp only [reap_keys, Option.some.injEq, Prod.mk.injEq] at h
    rw [← h.2] at hc
    simp at hc
  | cons k₀ rest ih =>
    intro s s' events hsub h c hc
    unfold reap_keys at h
    cases h₀ : StdMap.find s.connections k₀ with
    | none =>
      rw [h₀] at h
      exact ih s s' events hsub h c hc
    | some d₀ =>
      rw [h₀] at h
      by_cases hr : reapable d₀ now = true
      · simp only [hr, if_true] at h
        cases hdc : s.destroy_connection f d₀.get_connection reason with
        | none => rw [hdc] at h; cases h
        | some res =>
          obtain ⟨s₁, ev₁⟩ := res
          simp only [hdc] at h
          obtain ⟨hreg, hdel⟩ := destroy_connection_registry f s s₁ _ reason ev₁ hdc
          cases hrest : reap_keys f reason now rest
              { s₁ with connections := StdMap.erase s₁.connections k₀ } with
          | none => simp [hrest] at h
          | some res₂ =>
            obtain ⟨s₂, ev₂⟩ := res₂
            simp only [hrest] at h
            simp only [Option.some.injEq, Prod.mk.injEq] at h
            rw [← h.2] at hc
            rcases List.mem_append.1 hc with h1 | h1
            · exact ⟨k₀, d₀, hsub k₀ d₀ h₀, (hdel c h1).symm, hr⟩
            · refine ih _ s₂ ev₂ ?_ hrest c h1
              intro k d hk
              have hk' : StdMap.find (StdMap.erase s₁.connections k₀) k = some d := hk
              have := StdMap.find_erase_some _ _ _ _ hk'
              rw [hreg] at this
              exact hsub k d this
      · simp only [hr, if_false] at h
        exact ih s s' events hsub h c hc

theorem reap_cycles_keeps (f : Connection → Bool) (reason : String) (k : Int)
    (d : ConnectionDescriptor) (hd : d.is_being_processed = true) (times : List Int) :
    ∀ (s s' : Controller) (events : List Event),
      StdMap.find s.connections k = some d →
      reap_cycles f reason s times = some (s', events) →
      StdMap.find s'.connections k = some d := by
  induction times with
  | nil =>
    intro s s' events hk h
    simp only [reap_cycles, Option.some.injEq, Prod.mk.injEq] at h
    rw [← h.1]; exact hk
  | cons now rest ih =>
    intro s s' events hk h
    unfold reap_cycles at h
    cases hr : reap f reason now s with
    | none => rw [hr] at h; cases h
    | some res =>
      obtain ⟨s₁, ev₁⟩ := res
      simp only [hr] at h
      cases hrest : reap_cycles f reason s₁ rest with
      | none => simp [hrest] at h
      | some res₂ =>
        obtain ⟨s₂, ev₂⟩ := res₂
        simp only [hrest] at h
        simp only [Option.some.injEq, Prod.mk.injEq] at h
        rw [← h.1]
        exact ih s₁ s₂ ev₂
          (reap_keys_keeps f reason now k d (by simp [reapable, hd]) _ s s₁ ev₁ hk hr) hrest

/-- C17, on the reap cycle as the spec describes it: a descriptor whose
processing flag is true is in the registry, unchanged, after every sequence of
reap cycles, whatever their times; and in one cycle at time now, an entry that
is removed, and a connection that is destroyed, belong to a descriptor with
`!is_being_processed() && is_expired(now)`. -/
theorem processing_never_reaped (f : Connection → Bool) (reason : String) (s : Controller) :
    (∀ (times : List Int) (s' : Controller) (events : List Event) (k : Int)
        (d : ConnectionDescriptor),
      s.get_connection k = some d → d.is_being_processed = true →
      reap_cycles f reason s times = some (s', events) →
      s'.get_connection k = some d) ∧
    (∀ (now : Int) (s' : Controller) (events : List Event),
      reap f reason now s = some (s', events) →
      (∀ k d, s.get_connection k = some d → s'.get_connection k = none →
        reapable d now = true) ∧
      (∀ c, Event.delete_connection c ∈ events →
        ∃ k d, s.get_connection k = some d ∧ d.get_connection = c ∧
          reapable d now = true)) := by
  refine ⟨?_, ?_⟩
  · intro times s' events k d hk hd h
    exact reap_cycles_keeps f reason k d hd times s s' events hk h
  · intro now s' events h
    refine ⟨?_, ?_⟩
    · intro k d hk hgone
      cases hr : reapable d now with
      | true => rfl
      | false =>
        have := reap_keys_keeps f reason now k d hr _ s s' events hk h
        rw [Controller.get_connection, this] at hgone
        cases hgone
    · exact reap_keys_deletes f reason now s _ s s' events (fun _ _ h => h) h

theorem processing_never_reaped_witness :
    reap_cycles (fun _ => true) "idle"
        { Controller.new with
          next_client_id := 102
          connections := [(101, ⟨101, 8, 50, false⟩), (100, ⟨100, 7, 50, true⟩)] }
        [1000, 2000]
      = some ({ Controller.new with
                next_client_id := 102
                connections := [(100, ⟨100, 7, 50, true⟩)] },
              [Event.delete_connection 8]) ∧
    Controller.get_connection
        { Controller.new with
          next_client_id := 102
          connections := [(100, ⟨100, 7, 50, true⟩)] } 100
      = some ⟨100, 7, 50, true⟩ :=
  ⟨by decide,
    (processing_never_reaped (fun _ => true) "idle"
        { Controller.new with
          next_client_id := 102
          connections := [(101, ⟨101, 8, 50, false⟩), (100, ⟨100, 7, 50, true⟩)] }).1
      [1000, 2000] _ [Event.delete_connection 8] 100 ⟨100, 7, 50, true⟩
      (by decide) (by decide) (by decide)⟩

/-! ## The registry over the whole range of `int` identifiers -/

theorem wrapInt_succ (x : Int) : wrapInt (wrapInt x + 1) = wrapInt (x + 1) := by
  unfold wrapInt
  omega

/-- Two counter values less than 2^32 apart wrap to different identifiers. -/
theorem wrapInt_ne_of_lt (j m : Int) (h1 : j < m) (h2 : m - j < 4294967296) :
    wrapInt j ≠ wrapInt m := by
  unfold wrapInt
  omega

theorem StdMap.find_insert_of_some {κ α : Type} [DecidableEq κ] (m : StdMap κ α)
    (k k' : κ) (v d : α) (h : StdMap.find m k' = some d) :
    StdMap.find (StdMap.insert m k v) k' = some d := by
  by_cases hk : k' = k
  · subst hk
    simp [StdMap.insert, h]
  · rw [StdMap.find_insert_ne _ _ hk]
    exact h

theorem StdMap.insert_of_some {κ α : Type} [DecidableEq κ] (m : StdMap κ α)
    (k : κ) (v d : α) (h : StdMap.find m k = some d) : StdMap.insert m k v = m := by
  simp [StdMap.insert, h]

theorem StdMap.length_insert_of_none {κ α : Type} [DecidableEq κ] (m : StdMap κ α)
    (k : κ) (v : α) (h : StdMap.find m k = none) :
    (StdMap.insert m k v).length = m.length + 1 := by
  simp [StdMap.insert, h]

theorem find_add_connection_iff (s : Controller) (a : AddCall)
    (hfree : StdMap.find s.connections s.next_client_id = none) (k : Int)
    (d : ConnectionDescriptor) :
    StdMap.find (s.add_connection a.now a.connection a.expiration).connections k = some d ↔
      StdMap.find s.connections k = some d ∨
        (k = s.next_client_id ∧ d = stored s.connection_timeout s.next_client_id a) := by
  simp only [Controller.add_connection]
  by_cases hk : k = s.next_client_id
  · subst hk
    rw [StdMap.find_insert_of_none _ _ _ hfree, hfree]
    simp only [Option.some.injEq, true_and, stored]
    constructor
    · intro h; exact Or.inr h.symm
    · rintro (h | h)
      · cases h
      · exact h.symm
  · rw [StdMap.find_insert_ne _ _ hk]
    simp [hk]

theorem addAll_frame (calls : List AddCall) :
    ∀ s : Controller,
      (addAll s calls).1.connection_timeout = s.connection_timeout ∧
      (addAll s calls).1.providers = s.providers ∧
      (addAll s calls).1.provider_connection_map = s.provider_connection_map ∧
      (addAll s calls).1.comm_ifs = s.comm_ifs := by
  induction calls with
  | nil => intro s; exact ⟨rfl, rfl, rfl, rfl⟩
  | cons a rest ih =>
    intro s
    simp only [addAll]
    exact ih (s.add_connection a.now a.connection a.expiration)

/-- The counter after any number of calls. -/
theorem addAll_next_wrapped (calls : List AddCall) :
    ∀ (s : Controller) (m : Int), s.next_client_id = wrapInt m →
      (addAll s calls).1.next_client_id = wrapInt (m + calls.length) := by
  induction calls with
  | nil => intro s m hs; simpa [addAll] using hs
  | cons a rest ih =>
    intro s m hs
    have hs1 : (s.add_connection a.now a.connection a.expiration).next_client_id
        = wrapInt (m + 1) := by
      simp only [Controller.add_connection]
      rw [hs, wrapInt_succ]
    have := ih _ _ hs1
    simp only [addAll, List.length_cons, Nat.cast_add, Nat.cast_one]
    rw [this]
    congr 1
    omega

/-- The identifiers handed out are the wrapped values of the counter. -/
theorem addAll_ids_mem (calls : List AddCall) :
    ∀ (s : Controller) (m : Int), s.next_client_id = wrapInt m →
      ∀ id ∈ (addAll s calls).2, ∃ i : Nat, i < calls.length ∧ id = wrapInt (m + i) := by
  induction calls with
  | nil => intro s m _ id hid; simp [addAll] at hid
  | cons a rest ih =>
    intro s m hs id hid
    simp only [addAll, List.mem_cons] at hid
    rcases hid with hid | hid
    · exact ⟨0, by simp, by simpa using hid.trans hs⟩
    · have hs1 : (s.add_connection a.now a.connection a.expiration).next_client_id
          = wrapInt (m + 1) := by
        simp only [Controller.add_connection]
        rw [hs, wrapInt_succ]
      obtain ⟨i, hi, hid'⟩ := ih _ _ hs1 id hid
      refine ⟨i + 1, by simpa using hi, ?_⟩
      rw [hid']
      congr 1
      push_cast
      omega

/-- No call changes a descriptor that is already stored. -/
theorem addAll_keeps (calls : List AddCall) :
    ∀ (s : Controller) (k : Int) (d : ConnectionDescriptor),
      StdMap.find s.connections k = some d →
      StdMap.find (addAll s calls).1.connections k = some d := by
  induction calls with
  | nil => intro s k d h; exact h
  | cons a rest ih =>
    intro s k d h
    simp only [addAll]
    exact ih _ k d (StdMap.find_insert_of_some _ _ _ _ _ h)

theorem addAll_mem_zip (calls : List AddCall) :
    ∀ (s : Controller) (id : Int),
      id ∈ (addAll s calls).2 ↔ ∃ a, (id, a) ∈ (addAll s calls).2.zip calls := by
  induction calls with
  | nil => intro s id; simp [addAll]
  | cons a rest ih =>
    intro s id
    simp only [addAll, List.mem_cons, List.zip_cons_cons, Prod.mk.injEq]
    rw [ih]
    constructor
    · rintro (h | ⟨a', h⟩)
      · exact ⟨a, Or.inl ⟨h, rfl⟩⟩
      · exact ⟨a', Or.inr h⟩
    · rintro ⟨a', h | h⟩
      · exact Or.inl h.1
      · exact Or.inr ⟨a', h⟩

theorem zip_unique_of_nodup {α β : Type} (l₁ : List α) :
    ∀ (l₂ : List β) (x : α) (y y' : β), l₁.Nodup →
      (x, y) ∈ l₁.zip l₂ → (x, y') ∈ l₁.zip l₂ → y = y' := by
  induction l₁ with
  | nil => intro l₂ x y y' _ h; simp at h
  | cons x₀ t ih =>
    intro l₂ x y y' hnd h h'
    cases l₂ with
    | nil => simp at h
    | cons y₀ u =>
      simp only [List.zip_cons_cons, List.mem_cons, Prod.mk.injEq] at h h'
      have hx₀ := (List.nodup_cons.1 hnd).1
      rcases h with ⟨hx, hy⟩ | h
      · rcases h' with ⟨_, hy'⟩ | h'
        · rw [hy, hy']
        · exact absurd (hx ▸ (List.of_mem_zip h').1) hx₀
      · rcases h' with ⟨hx, _⟩ | h'
        · exact absurd (hx ▸ (List.of_mem_zip h).1) hx₀
        · exact ih u x y y' (List.nodup_cons.1 hnd).2 h h'

/-- The registry through at most 2^32 calls. When the keys already stored are
wrapped counter values from the 2^32 - (number of calls) values before `m`, and
the counter holds `m` wrapped, every call finds its key free: the identifiers
handed out are distinct, each call adds its descriptor, and nothing else
changes. -/
theorem addAll_registry_wrap (calls : List AddCall) :
    ∀ (s : Controller) (m : Int), s.next_client_id = wrapInt m →
      calls.length ≤ 4294967296 →
      (∀ k d, StdMap.find s.connections k = some d →
        ∃ j : Int, m + calls.length - 4294967296 ≤ j ∧ j < m ∧ k = wrapInt j) →
      (∀ k d, StdMap.find (addAll s calls).1.connections k = some d ↔
        StdMap.find s.connections k = some d ∨
          ∃ a, (k, a) ∈ (addAll s calls).2.zip calls ∧ d = stored s.connection_timeout k a) ∧
      (addAll s calls).1.connections.length = s.connections.length + calls.length ∧
      (addAll s calls).2.Nodup := by
  induction calls with
  | nil =>
    intro s m _ _ _
    simp [addAll]
  | cons a rest ih =>
    intro s m hs hlen hwin
    simp only [List.length_cons, Nat.cast_add, Nat.cast_one] at hlen hwin
    have hfree : StdMap.find s.connections s.next_client_id = none := by
      cases hf : StdMap.find s.connections s.next_client_id with
      | none => rfl
      | some d =>
        obtain ⟨j, h1, h2, h3⟩ := hwin _ d hf
        rw [hs] at h3
        exact absurd h3.symm (wrapInt_ne_of_lt j m h2 (by omega))
    have hs1 : (s.add_connection a.now a.connection a.expiration).next_client_id
        = wrapInt (m + 1) := by
      simp only [Controller.add_connection]
      rw [hs, wrapInt_succ]
    have hwin1 : ∀ k d,
        StdMap.find (s.add_connection a.now a.connection a.expiration).connections k = some d →
        ∃ j : Int, m + 1 + rest.length - 4294967296 ≤ j ∧ j < m + 1 ∧ k = wrapInt j := by
      intro k d hk
      rcases (find_add_connection_iff s a hfree k d).1 hk with hold | ⟨hk', _⟩
      · obtain ⟨j, h1, h2, h3⟩ := hwin k d hold
        exact ⟨j, by omega, by omega, h3⟩
      · exact ⟨m, by omega, by omega, hk'.trans hs⟩
    obtain ⟨hreg, hcount, hnodup⟩ :=
      ih (s.add_connection a.now a.connection a.expiration) (m + 1) hs1 (by omega) hwin1
    have hhead : s.next_client_id ∉
        (addAll (s.add_connection a.now a.connection a.expiration) rest).2 := by
      intro hmem
      obtain ⟨i, hi, hid⟩ := addAll_ids_mem rest _ (m + 1) hs1 _ hmem
      rw [hs] at hid
      exact absurd hid (wrapInt_ne_of_lt m (m + 1 + i) (by omega) (by omega))
    refine ⟨?_, ?_, ?_⟩
    · intro k d
      simp only [addAll, List.zip_cons_cons, List.mem_cons, Prod.mk.injEq]
      rw [hreg k d, find_add_connection_iff s a hfree k d]
      have htimeout : (s.add_connection a.now a.connection a.expiration).connection_timeout
          = s.connection_timeout := rfl
      rw [htimeout]
      constructor
      · rintro ((hold | ⟨hk, hd⟩) | ⟨a', hz, hd⟩)
        · exact Or.inl hold
        · exact Or.inr ⟨a, Or.inl ⟨hk, rfl⟩, by rw [hd, hk]⟩
        · exact Or.inr ⟨a', Or.inr hz, hd⟩
      · rintro (hold | ⟨a', ⟨hk, ha⟩ | hz, hd⟩)
        · exact Or.inl (Or.inl hold)
        · exact Or.inl (Or.inr ⟨hk, by rw [hd, hk, ha]⟩)
        · exact Or.inr ⟨a', hz, hd⟩
    · simp only [addAll, List.length_cons]
      rw [hcount]
      simp only [Controller.add_connection]
      rw [StdMap.length_insert_of_none _ _ _ hfree]
      omega
    · simp only [addAll]
      exact List.nodup_cons.2 ⟨hhead, hnodup⟩

/-- A call made when the counter has come round to an identifier in use. -/
theorem add_connection_key_taken (t : Controller) (a : AddCall) (id : Int)
    (d : ConnectionDescriptor) (hnext : t.next_client_id = id)
    (hd : StdMap.find t.connections id = some d) :
    t.get_connection t.next_client_id = some d ∧
    (addAll t [a]).2 = [id] ∧
    (addAll t [a]).1.get_connection id = some d ∧
    (addAll t [a]).1.connections = t.connections := by
  subst hnext
  refine ⟨hd, rfl, ?_, ?_⟩
  · exact StdMap.find_insert_of_some _ _ _ _ _ hd
  · exact StdMap.insert_of_some _ _ _ _ hd

/-- The registry of a freshly constructed Controller after at most 2^32 calls. -/
theorem addAll_new_registry (calls : List AddCall) (h : calls.length ≤ 4294967296) :
    (∀ k d, StdMap.find (addAll Controller.new calls).1.connections k = some d ↔
        ∃ a, (k, a) ∈ (addAll Controller.new calls).2.zip calls ∧ d = stored 600 k a) ∧
    (addAll Controller.new calls).1.connections.length = calls.length ∧
    (addAll Controller.new calls).2.Nodup := by
  obtain ⟨hreg, hcount, hnd⟩ := addAll_registry_wrap calls Controller.new 100 (by decide) h
    (by intro k d hk; simp [Controller.new, StdMap.find] at hk)
  refine ⟨?_, by simpa [Controller.new] using hcount, hnd⟩
  intro k d
  rw [hreg k d]
  constructor
  · rintro (hold | hnew)
    · simp [Controller.new, StdMap.find] at hold
    · exact hnew
  · intro hnew
    exact Or.inr hnew

/-! ## C14: get_connection -/

/-- C14, as the code has it: in every state reached from a freshly constructed
Controller by at most 2^32 = 4294967296 add_connection calls, the calls were
given distinct identifiers, get_connection(id) returns a descriptor exactly
when id was given to one of the calls, and then the descriptor has get_id()
equal to id and is the one that call constructed, with the connection passed to
it. (get_connection only reads the registry.) -/
theorem get_connection_assigned (calls : List AddCall) (h : calls.length ≤ 4294967296) :
    (addAll Controller.new calls).2.Nodup ∧
    (∀ id, ((addAll Controller.new calls).1.get_connection id).isSome = true ↔
      id ∈ (addAll Controller.new calls).2) ∧
    (∀ id, id ∉ (addAll Controller.new calls).2 →
      (addAll Controller.new calls).1.get_connection id = none) ∧
    (∀ id d, (addAll Controller.new calls).1.get_connection id = some d → d.get_id = id) ∧
    (∀ id d a, (addAll Controller.new calls).1.get_connection id = some d →
      (id, a) ∈ (addAll Controller.new calls).2.zip calls →
      d.get_connection = a.connection ∧ d = stored 600 id a) := by
  obtain ⟨hreg, _, hnd⟩ := addAll_new_registry calls h
  have hsome : ∀ id, ((addAll Controller.new calls).1.get_connection id).isSome = true ↔
      id ∈ (addAll Controller.new calls).2 := by
    intro id
    rw [addAll_mem_zip, Option.isSome_iff_exists]
    constructor
    · rintro ⟨d, hd⟩
      obtain ⟨a, ha, _⟩ := (hreg id d).1 hd
      exact ⟨a, ha⟩
    · rintro ⟨a, ha⟩
      exact ⟨_, (hreg id _).2 ⟨a, ha, rfl⟩⟩
  refine ⟨hnd, hsome, ?_, ?_, ?_⟩
  · intro id hid
    cases hg : (addAll Controller.new calls).1.get_connection id with
    | none => rfl
    | some d => exact absurd ((hsome id).1 (by rw [hg]; rfl)) hid
  · intro id d hd
    obtain ⟨a, _, hda⟩ := (hreg id d).1 hd
    rw [hda]; rfl
  · intro id d a hd ha
    obtain ⟨a₀, ha₀, hda⟩ := (hreg id d).1 hd
    have := zip_unique_of_nodup _ _ id a₀ a hnd ha₀ ha
    subst this
    rw [hda]
    exact ⟨rfl, rfl⟩

theorem get_connection_assigned_witness :
    ([⟨0, 1, 0⟩, ⟨5, 2, -1⟩] : List AddCall).length ≤ 4294967296 ∧
    (addAll Controller.new [⟨0, 1, 0⟩, ⟨5, 2, -1⟩]).2.Nodup ∧
    (∀ id, ((addAll Controller.new [⟨0, 1, 0⟩, ⟨5, 2, -1⟩]).1.get_connection id).isSome = true ↔
      id ∈ (addAll Controller.new [⟨0, 1, 0⟩, ⟨5, 2, -1⟩]).2) ∧
    (∀ id, id ∉ (addAll Controller.new [⟨0, 1, 0⟩, ⟨5, 2, -1⟩]).2 →
      (addAll Controller.new [⟨0, 1, 0⟩, ⟨5, 2, -1⟩]).1.get_connection id = none) ∧
    (∀ id d, (addAll Controller.new [⟨0, 1, 0⟩, ⟨5, 2, -1⟩]).1.get_connection id = some d →
      d.get_id = id) ∧
    (∀ id d a, (addAll Controller.new [⟨0, 1, 0⟩, ⟨5, 2, -1⟩]).1.get_connection id = some d →
      (id, a) ∈ (addAll Controller.new [⟨0, 1, 0⟩, ⟨5, 2, -1⟩]).2.zip [⟨0, 1, 0⟩, ⟨5, 2, -1⟩] →
      d.get_connection = a.connection ∧ d = stored 600 id a) :=
  ⟨by decide, get_connection_assigned [⟨0, 1, 0⟩, ⟨5, 2, -1⟩] (by decide)⟩

/-- C14 fails as stated. After 2^32 = 4294967296 add_connection calls on a
freshly constructed Controller, the first with connection 1, the counter is
back at 100. The next call, with connection 3, is given the identifier 100, but
its descriptor is not stored (the key is taken): get_connection(100) returns
the descriptor of the first call, whose connection is 1. -/
theorem get_connection_reused_id_counterexample :
    (addAll (Controller.new.add_connection 0 1 5)
        (List.replicate 4294967295 ⟨0, 2, 5⟩)).1.next_client_id = 100 ∧
    (addAll (addAll (Controller.new.add_connection 0 1 5)
        (List.replicate 4294967295 ⟨0, 2, 5⟩)).1 [⟨0, 3, 5⟩]).2 = [100] ∧
    (addAll (addAll (Controller.new.add_connection 0 1 5)
        (List.replicate 4294967295 ⟨0, 2, 5⟩)).1 [⟨0, 3, 5⟩]).1.get_connection 100
      = some ⟨100, 1, 5, false⟩ := by
  have hnext : (addAll (Controller.new.add_connection 0 1 5)
      (List.replicate 4294967295 ⟨0, 2, 5⟩)).1.next_client_id = 100 := by
    rw [addAll_next_wrapped (List.replicate 4294967295 ⟨0, 2, 5⟩)
      (Controller.new.add_connection 0 1 5) 101 (by decide), List.length_replicate]
    decide
  have hd := addAll_keeps (List.replicate 4294967295 ⟨0, 2, 5⟩)
    (Controller.new.add_connection 0 1 5) 100 ⟨100, 1, 5, false⟩ (by decide)
  have hkt := add_connection_key_taken _ ⟨0, 3, 5⟩ 100 ⟨100, 1, 5, false⟩ hnext hd
  exact ⟨hnext, hkt.2.1, hkt.2.2.1⟩

/-! ## C19: one registry entry per call -/

/-- C19, as the code has it: in every state reached from a freshly constructed
Controller by fewer than 2^32 add_connection calls the key next_client_id is
not yet in the registry; after n calls, n at most 2^32 = 4294967296, the
registry holds exactly n descriptors; no later call changes a descriptor that
is stored; and the calls leave the provider directory as it is. -/
theorem add_connection_adds_one_entry (calls : List AddCall)
    (h : calls.length ≤ 4294967296) :
    (calls.length < 4294967296 →
      (addAll Controller.new calls).1.get_connection
        (addAll Controller.new calls).1.next_client_id = none) ∧
    (addAll Controller.new calls).1.connections.length = calls.length ∧
    (∀ (more : List AddCall) k d, (addAll Controller.new calls).1.get_connection k = some d →
      (addAll (addAll Controller.new calls).1 more).1.get_connection k = some d) ∧
    (addAll Controller.new calls).1.providers = Controller.new.providers ∧
    (addAll Controller.new calls).1.provider_connection_map
      = Controller.new.provider_connection_map := by
  obtain ⟨hreg, hcount, _⟩ := addAll_new_registry calls h
  have hframe := addAll_frame calls Controller.new
  refine ⟨?_, hcount, ?_, hframe.2.1, hframe.2.2.1⟩
  · intro hlt
    have hnext := addAll_next_wrapped calls Controller.new 100 (by decide)
    cases hg : (addAll Controller.new calls).1.get_connection
        (addAll Controller.new calls).1.next_client_id with
    | none => rfl
    | some d =>
      obtain ⟨a, ha, _⟩ := (hreg _ d).1 hg
      obtain ⟨i, hi, hid⟩ := addAll_ids_mem calls Controller.new 100 (by decide) _
        (List.of_mem_zip ha).1
      rw [hnext] at hid
      exact absurd hid.symm (wrapInt_ne_of_lt (100 + i) (100 + calls.length) (by omega)
        (by omega))
  · intro more k d hk
    exact addAll_keeps more _ k d hk

theorem add_connection_adds_one_entry_witness :
    ([⟨0, 1, 0⟩, ⟨5, 2, -1⟩, ⟨9, 3, 50⟩] : List AddCall).length ≤ 4294967296 ∧
    (([⟨0, 1, 0⟩, ⟨5, 2, -1⟩, ⟨9, 3, 50⟩] : List AddCall).length < 4294967296 →
      (addAll Controller.new [⟨0, 1, 0⟩, ⟨5, 2, -1⟩, ⟨9, 3, 50⟩]).1.get_connection
        (addAll Controller.new [⟨0, 1, 0⟩, ⟨5, 2, -1⟩, ⟨9, 3, 50⟩]).1.next_client_id = none) ∧
    (addAll Controller.new [⟨0, 1, 0⟩, ⟨5, 2, -1⟩, ⟨9, 3, 50⟩]).1.connections.length
      = ([⟨0, 1, 0⟩, ⟨5, 2, -1⟩, ⟨9, 3, 50⟩] : List AddCall).length ∧
    (∀ (more : List AddCall) k d,
      (addAll Controller.new [⟨0, 1, 0⟩, ⟨5, 2, -1⟩, ⟨9, 3, 50⟩]).1.get_connection k = some d →
      (addAll (addAll Controller.new [⟨0, 1, 0⟩, ⟨5, 2, -1⟩, ⟨9, 3, 50⟩]).1
        more).1.get_connection k = some d) ∧
    (addAll Controller.new [⟨0, 1, 0⟩, ⟨5, 2, -1⟩, ⟨9, 3, 50⟩]).1.providers
      = Controller.new.providers ∧
    (addAll Controller.new [⟨0, 1, 0⟩, ⟨5, 2, -1⟩, ⟨9, 3, 50⟩]).1.provider_connection_map
      = Controller.new.provider_connection_map :=
  ⟨by decide, add_connection_adds_one_entry [⟨0, 1, 0⟩, ⟨5, 2, -1⟩, ⟨9, 3, 50⟩] (by decide)⟩

/-- C19 fails as stated. After 2^32 = 4294967296 add_connection calls on a
freshly constructed Controller the counter is back at 100, a key that is in the
registry since the first call: the next call adds no entry. -/
theorem add_connection_key_present_counterexample :
    (addAll (Controller.new.add_connection 0 1 5)
        (List.replicate 4294967295 ⟨0, 1, 5⟩)).1.next_client_id = 100 ∧
    (addAll (Controller.new.add_connection 0 1 5)
        (List.replicate 4294967295 ⟨0, 1, 5⟩)).1.get_connection
      (addAll (Controller.new.add_connection 0 1 5)
        (List.replicate 4294967295 ⟨0, 1, 5⟩)).1.next_client_id
      = some ⟨100, 1, 5, false⟩ ∧
    (addAll (addAll (Controller.new.add_connection 0 1 5)
        (List.replicate 4294967295 ⟨0, 1, 5⟩)).1 [⟨0, 1, 5⟩]).1.connections
      = (addAll (Controller.new.add_connection 0 1 5)
        (List.replicate 4294967295 ⟨0, 1, 5⟩)).1.connections := by
  have hnext : (addAll (Controller.new.add_connection 0 1 5)
      (List.replicate 4294967295 ⟨0, 1, 5⟩)).1.next_client_id = 100 := by
    rw [addAll_next_wrapped (List.replicate 4294967295 ⟨0, 1, 5⟩)
      (Controller.new.add_connection 0 1 5) 101 (by decide), List.length_replicate]
    decide
  have hd := addAll_keeps (List.replicate 4294967295 ⟨0, 1, 5⟩)
    (Controller.new.add_connection 0 1 5) 100 ⟨100, 1, 5, false⟩ (by decide)
  have hkt := add_connection_key_taken _ ⟨0, 1, 5⟩ 100 ⟨100, 1, 5, false⟩ hnext hd
  exact ⟨hnext, hkt.1, hkt.2.2.2⟩

/-! ## C10: the stored descriptor -/

/-- A call made when the key next_client_id is taken stores nothing. -/
theorem add_connection_taken (t : Controller) (now : Int) (c : Connection) (e : Int)
    (id : Int) (d : ConnectionDescriptor) (hnext : t.next_client_id = id)
    (hd : StdMap.find t.connections id = some d) :
    (t.add_connection now c e).get_connection id = some d ∧
    (t.add_connection now c e).connections = t.connections := by
  subst hnext
  exact ⟨StdMap.find_insert_of_some _ _ _ _ _ hd, StdMap.insert_of_some _ _ _ _ hd⟩

/-- C10, as the code has it: for every connection c, expiration e, current time
now and idle timeout T, in a state whose key next_client_id is not yet in the
registry and, when e == 0, with now + T a `long` (from -2^63 up to 2^63,
excluded), add_connection(c, e) stores under that key the descriptor with that
identifier, connection c, processing flag false, and expiration now + T when
e == 0 and exactly e when e != 0. When e != 0 the registry after the call is
the same whatever the idle timeout is. -/
theorem add_connection_stores (now : Int) (s : Controller) (c : Connection) (e : Int)
    (hfree : s.get_connection s.next_client_id = none)
    (hrange : e = 0 →
      -9223372036854775808 ≤ now + s.get_idle_connection_timeout ∧
      now + s.get_idle_connection_timeout < 9223372036854775808) :
    (s.add_connection now c e).get_connection s.next_client_id =
      some ⟨s.next_client_id, c,
        if e = 0 then now + s.get_idle_connection_timeout else e, false⟩ ∧
    (e ≠ 0 → ∀ T, ((s.set_idle_connection_timeout T).add_connection now c e).connections
      = (s.add_connection now c e).connections) := by
  refine ⟨?_, ?_⟩
  · rw [get_connection_add_connection now s c e hfree]
    by_cases he : e = 0
    · obtain ⟨h1, h2⟩ := hrange he
      simp only [Controller.get_idle_connection_timeout] at h1 h2
      simp only [he, if_true, ConnectionDescriptor.new, Controller.get_idle_connection_timeout,
        wrapLong_eq _ h1 h2]
    · simp only [he, if_false, ConnectionDescriptor.new]
  · intro he T
    simp [Controller.add_connection, Controller.set_idle_connection_timeout, he]

theorem add_connection_stores_witness :
    (Controller.new.get_connection Controller.new.next_client_id = none ∧
      ((0 : Int) = 0 →
        -9223372036854775808 ≤ 1000 + Controller.new.get_idle_connection_timeout ∧
        1000 + Controller.new.get_idle_connection_timeout < 9223372036854775808)) ∧
    (Controller.new.add_connection 1000 7 0).get_connection 100
      = some ⟨100, 7, 1600, false⟩ ∧
    ((0 : Int) ≠ 0 →
      ∀ T, ((Controller.new.set_idle_connection_timeout T).add_connection 1000 7 0).connections
        = (Controller.new.add_connection 1000 7 0).connections) :=
  ⟨⟨by decide, fun _ => by decide⟩,
    add_connection_stores 1000 Controller.new 7 0 (by decide) (fun _ => by decide)⟩

/-- C10 fails as stated. With the idle timeout 9223372036854775807, the largest
`long`, add_connection(7, 0) at time 1 stores the expiration
-9223372036854775808, the wrapped sum, not 1 + 9223372036854775807. And after
2^32 = 4294967296 add_connection calls on a freshly constructed Controller, the
first with connection 4, the counter is back at 100, a key that is taken:
add_connection(6, 9) stores nothing, and the descriptor under its identifier
100 has connection 4. -/
theorem add_connection_stores_counterexample :
    (((Controller.new.set_idle_connection_timeout 9223372036854775807).add_connection
          1 7 0).get_connection 100
        = some ⟨100, 7, -9223372036854775808, false⟩ ∧
      (-9223372036854775808 : Int) ≠ 1 + 9223372036854775807) ∧
    ((addAll (Controller.new.add_connection 0 4 9)
          (List.replicate 4294967295 ⟨0, 5, 9⟩)).1.next_client_id = 100 ∧
      ((addAll (Controller.new.add_connection 0 4 9)
          (List.replicate 4294967295 ⟨0, 5, 9⟩)).1.add_connection 0 6 9).get_connection 100
        = some ⟨100, 4, 9, false⟩ ∧
      ((addAll (Controller.new.add_connection 0 4 9)
          (List.replicate 4294967295 ⟨0, 5, 9⟩)).1.add_connection 0 6 9).connections
        = (addAll (Controller.new.add_connection 0 4 9)
          (List.replicate 4294967295 ⟨0, 5, 9⟩)).1.connections) := by
  have hnext : (addAll (Controller.new.add_connection 0 4 9)
      (List.replicate 4294967295 ⟨0, 5, 9⟩)).1.next_client_id = 100 := by
    rw [addAll_next_wrapped (List.replicate 4294967295 ⟨0, 5, 9⟩)
      (Controller.new.add_connection 0 4 9) 101 (by decide), List.length_replicate]
    decide
  have hd := addAll_keeps (List.replicate 4294967295 ⟨0, 5, 9⟩)
    (Controller.new.add_connection 0 4 9) 100 ⟨100, 4, 9, false⟩ (by decide)
  have ht := add_connection_taken _ 0 6 9 100 ⟨100, 4, 9, false⟩ hnext hd
  exact ⟨⟨by decide, by decide⟩, hnext, ht.1, ht.2⟩

end Srl
